import Mathlib

/-!
Shallow embedding of the connection profile / connection group configuration
store implemented in src/src/connectionconfig/connectionconfig.ts.

Modelling conventions:
* TypeScript values of type string-or-undefined are embedded as Option String
  (none stands for undefined).  JavaScript truthiness of such a value
  (used by guards of the form if (x) / if (!x)) is captured by truthy below:
  undefined and the empty string are falsy, every other string is truthy.
* The two-scope settings backend is a record of the stored arrays per layer
  (global, workspace, workspace folder), plus a log of the settings writes
  performed; every setConfiguration call prepends one WriteEvent, so an
  unchanged writeLog means zero settings writes.
* Logging and user-facing notification calls have no effect on stored data
  and are omitted.
* Fallible operations (which can throw) return Except JsErr paired with the
  resulting settings state; an error is produced exactly at the program
  points where the TypeScript code throws.
-/

/-- A TypeScript string-or-undefined value. -/
abbrev OptStr := Option String

/-- JavaScript truthiness of a string-or-undefined value: undefined and the
empty string are falsy. -/
def truthy : OptStr → Bool
  | none => false
  | some s => s ≠ ""

/-- Modelled from the spec: the reserved well-known id of the ROOT connection
group (Constants.ROOT_GROUP_ID, an opaque constant string not under src/). -/
def rootGroupId : String := "ROOT-GROUP-ID"

/-- Modelled from the spec: the reserved name of the ROOT connection group
(Constants.ROOT_GROUP_NAME, an opaque constant string not under src/). -/
def rootGroupName : String := "ROOT"

/-- Modelled from the spec: the placeholder server name of the default sample
connection (LocalizedConstants.SampleServerName, not under src/). -/
def sampleServerName : String := "SAMPLE-SERVER"

/-- IConnectionProfile restricted to the fields this store reads: identity
fields plus the display-name / equality fields. -/
structure IConnectionProfile where
  id : OptStr
  groupId : OptStr
  profileName : OptStr
  server : OptStr
  connectionString : OptStr
deriving DecidableEq

/-- IConnectionGroup: a named node of the group tree. -/
structure IConnectionGroup where
  id : OptStr
  name : OptStr
  parentId : OptStr
deriving DecidableEq

/-- ConfigurationTarget restricted to the two scopes this store uses. -/
inductive ConfigTarget where
  | global
  | workspace
deriving DecidableEq

/-- The scope argument of addConnection / addGroup. -/
inductive Scope where
  | user
  | workspace
deriving DecidableEq

/-- scope === "user" ? ConfigurationTarget.Global : ConfigurationTarget.Workspace -/
def Scope.toTarget : Scope → ConfigTarget
  | .user => .global
  | .workspace => .workspace

/-- One settings write (a setConfiguration call), recording which section and
which scope was written. -/
inductive WriteEvent where
  | connections (target : ConfigTarget)
  | groups (target : ConfigTarget)
deriving DecidableEq

/-- The stored settings: the connections and connectionGroups arrays of each
layer, plus the log of settings writes performed so far. -/
structure SettingsState where
  userConnections : List IConnectionProfile
  workspaceConnections : List IConnectionProfile
  workspaceFolderConnections : List IConnectionProfile
  userGroups : List IConnectionGroup
  workspaceGroups : List IConnectionGroup
  workspaceFolderGroups : List IConnectionGroup
  writeLog : List WriteEvent
deriving DecidableEq

/-- getConnectionsFromSettings: the global layer alone, or the concatenation
of the workspace and workspace-folder layers. -/
def getConnectionsFromSettings (st : SettingsState) : ConfigTarget → List IConnectionProfile
  | .global => st.userConnections
  | .workspace => st.workspaceConnections ++ st.workspaceFolderConnections

/-- getGroupsFromSettings: same scope resolution for connection groups. -/
def getGroupsFromSettings (st : SettingsState) : ConfigTarget → List IConnectionGroup
  | .global => st.userGroups
  | .workspace => st.workspaceGroups ++ st.workspaceFolderGroups

/-- writeConnectionsToSettings: replace one layer's connections array and log
the write. -/
def writeConnectionsToSettings (profiles : List IConnectionProfile) (target : ConfigTarget)
    (st : SettingsState) : SettingsState :=
  match target with
  | .global =>
    { st with userConnections := profiles, writeLog := .connections .global :: st.writeLog }
  | .workspace =>
    { st with workspaceConnections := profiles, writeLog := .connections .workspace :: st.writeLog }

/-- writeConnectionGroupsToSettings: replace one layer's groups array and log
the write. -/
def writeConnectionGroupsToSettings (groups : List IConnectionGroup) (target : ConfigTarget)
    (st : SettingsState) : SettingsState :=
  match target with
  | .global =>
    { st with userGroups := groups, writeLog := .groups .global :: st.writeLog }
  | .workspace =>
    { st with workspaceGroups := groups, writeLog := .groups .workspace :: st.writeLog }

/-- Modelled from the spec: Utils.isSameProfile (not under src/), the
externally supplied structural-equality predicate, compares the
connection-defining fields and not the id (nor the owning group). -/
def isSameProfile (a b : IConnectionProfile) : Bool :=
  a.profileName = b.profileName ∧ a.server = b.server ∧ a.connectionString = b.connectionString

/-- The sort key of compareConnectionProfile:
profileName if truthy, else server if truthy, else connectionString. -/
def connSortKey (p : IConnectionProfile) : OptStr :=
  if truthy p.profileName then p.profileName
  else if truthy p.server then p.server
  else p.connectionString

/-- A JavaScript string coercion of the right operand of localeCompare:
undefined is coerced to the string "undefined". -/
def keyStr (p : IConnectionProfile) : String :=
  (connSortKey p).getD "undefined"

/-- Errors thrown by the store. -/
inductive JsErr where
  | typeError
  | notFound (id : OptStr)
  | groupNotFound (id : OptStr)
deriving DecidableEq

/-- compareConnectionProfile under an ambient locale comparison lcmp:
calling localeCompare on an undefined left key throws a TypeError, an
undefined right key is coerced to the string "undefined". -/
def cmpConn (lcmp : String → String → Int) (a b : IConnectionProfile) : Except JsErr Int :=
  match connSortKey a with
  | none => .error .typeError
  | some ka => .ok (lcmp ka (keyStr b))

/-- Insert one element into an already sorted list, propagating comparator
throws (models one step of a comparison sort as Array.prototype.sort uses). -/
def insertSorted (cmp : α → α → Except JsErr Int) (x : α) : List α → Except JsErr (List α)
  | [] => .ok [x]
  | y :: ys =>
    match cmp x y with
    | .error e => .error e
    | .ok c =>
      if c ≤ 0 then .ok (x :: y :: ys)
      else
        match insertSorted cmp x ys with
        | .error e => .error e
        | .ok zs => .ok (y :: zs)

/-- Comparison sort with a fallible comparator.  Array.prototype.sort with a
consistent comparator produces a sorted permutation; a comparator throw
propagates out of the sort.  Insertion sort realises that contract. -/
def sortByCmp (cmp : α → α → Except JsErr Int) : List α → Except JsErr (List α)
  | [] => .ok []
  | x :: xs =>
    match sortByCmp cmp xs with
    | .error e => .error e
    | .ok l => insertSorted cmp x l

/-- getRootGroup: the hard-coded, never persisted ROOT group. -/
def getRootGroup : IConnectionGroup :=
  { id := some rootGroupId, name := some rootGroupName, parentId := none }

/-- getGroups: the synthetic ROOT group followed by the stored groups of the
requested scope, excluding any persisted entry carrying the ROOT id. -/
def getGroups (st : SettingsState) (location : ConfigTarget) : List IConnectionGroup :=
  getRootGroup :: (getGroupsFromSettings st location).filter (fun g => g.id ≠ some rootGroupId)

/-- The filter of getConnections dropping profiles that have neither a
connection string set nor a real (non-sample) server name. -/
def connHasInfo (p : IConnectionProfile) : Bool :=
  truthy p.connectionString || (truthy p.server && p.server ≠ some sampleServerName)

/-- getConnections: global profiles sorted by the display comparator, then
(optionally) workspace profiles with falsy ids dropped and the rest sorted,
then the missing-connection-information filter, then the unknown-group
filter against the global group list. -/
def getConnections (lcmp : String → String → Int) (alsoGetFromWorkspace : Bool)
    (st : SettingsState) : Except JsErr (List IConnectionProfile) :=
  match sortByCmp (cmpConn lcmp) (getConnectionsFromSettings st .global) with
  | .error e => .error e
  | .ok userSorted =>
    match (if alsoGetFromWorkspace then (
        match sortByCmp (cmpConn lcmp)
            ((getConnectionsFromSettings st .workspace).filter (fun p => truthy p.id)) with
        | .error e => .error e
        | .ok wsSorted => .ok (userSorted ++ wsSorted)
        : Except JsErr (List IConnectionProfile))
      else .ok userSorted) with
    | .error e => .error e
    | .ok profiles =>
      let profiles := if profiles.length > 0 then profiles.filter connHasInfo else profiles
      let groupIds := (getGroups st .global).map (fun g => g.id)
      .ok (profiles.filter (fun p => p.groupId ∈ groupIds))

/-- getConnectionById: fetch all (including workspace) and linear search. -/
def getConnectionById (lcmp : String → String → Int) (id : String)
    (st : SettingsState) : Except JsErr (Option IConnectionProfile) :=
  match getConnections lcmp true st with
  | .error e => .error e
  | .ok profiles => .ok (profiles.find? (fun p => p.id = some id))

/-- populateMissingConnectionIds: back-fill a missing groupId with the ROOT
id, and a missing id with a generated one (ConnectionProfile.addIdIfMissing
is not under src/; modelled from the spec as assigning the supplied fresh
identifier).  Returns the updated profile and whether it was modified. -/
def populateMissingConnectionIds (freshId : String) (p : IConnectionProfile) :
    IConnectionProfile × Bool :=
  let p1 := if p.groupId = none then { p with groupId := some rootGroupId } else p
  let m1 : Bool := p.groupId = none
  let p2 := if p1.id = none then { p1 with id := some freshId } else p1
  let m2 : Bool := p1.id = none
  (p2, m1 || m2)

/-- addConnection: back-fill ids, drop structurally equal profiles from the
target scope, append, write back. -/
def addConnection (freshId : String) (p : IConnectionProfile) (scope : Scope)
    (st : SettingsState) : SettingsState :=
  let p := (populateMissingConnectionIds freshId p).1
  let target := scope.toTarget
  let profiles := getConnectionsFromSettings st target
  let profiles := profiles.filter (fun q => !(isSameProfile q p))
  writeConnectionsToSettings (profiles ++ [p]) target st

/-- removeConnection: read the global list through getConnections(false),
remove every structurally equal profile, write back only if one was found.
The in-place backwards splice of removeConnectionHelper is extensionally the
filter below, and found is whether the length shrank. -/
def removeConnection (lcmp : String → String → Int) (p : IConnectionProfile)
    (st : SettingsState) : Except JsErr Bool × SettingsState :=
  match getConnections lcmp false st with
  | .error e => (.error e, st)
  | .ok profiles =>
    let remaining := profiles.filter (fun q => !(isSameProfile q p))
    if remaining.length ≠ profiles.length then
      (.ok true, writeConnectionsToSettings remaining .global st)
    else
      (.ok false, st)

/-- findIndex of the first element satisfying the predicate. -/
def findIndexBy (f : α → Bool) : List α → Option Nat
  | [] => none
  | x :: xs => if f x then some 0 else (findIndexBy f xs).map (· + 1)

/-- updateConnection: read the global list through getConnections(false),
locate by id, throw not-found if absent, else replace in place and write. -/
def updateConnection (lcmp : String → String → Int) (p : IConnectionProfile)
    (st : SettingsState) : Except JsErr Unit × SettingsState :=
  match getConnections lcmp false st with
  | .error e => (.error e, st)
  | .ok profiles =>
    match findIndexBy (fun q => q.id = p.id) profiles with
    | none => (.error (.notFound p.id), st)
    | some i => (.ok (), writeConnectionsToSettings (profiles.set i p) .global st)

/-- addGroup: refuse the reserved ROOT id, back-fill a falsy id with a
generated one and a falsy parentId with the ROOT id, append to the target
scope with any persisted ROOT-id entries excluded from the write set. -/
def addGroup (freshId : String) (g : IConnectionGroup) (scope : Scope)
    (st : SettingsState) : SettingsState :=
  if g.id = some rootGroupId then st
  else
    let g := if !truthy g.id then { g with id := some freshId } else g
    let g := if !truthy g.parentId then { g with parentId := some rootGroupId } else g
    let target := scope.toTarget
    let groups := (getGroupsFromSettings st target).filter (fun h => h.id ≠ some rootGroupId)
    writeConnectionGroupsToSettings (groups ++ [g]) target st

/-- updateGroup: no-op for the ROOT id; locate among non-ROOT stored groups,
throw if absent, else replace and write. -/
def updateGroup (g : IConnectionGroup) (st : SettingsState) :
    Except JsErr Unit × SettingsState :=
  if g.id = some rootGroupId then (.ok (), st)
  else
    let groups := (getGroupsFromSettings st .global).filter (fun h => h.id ≠ some rootGroupId)
    match findIndexBy (fun h => h.id = g.id) groups with
    | none => (.error (.groupNotFound g.id), st)
    | some i => (.ok (), writeConnectionGroupsToSettings (groups.set i g) .global st)

/-- The recursive subgroup-id collection of removeGroup: the target id plus,
for every stored group whose parentId equals the current id, that group's own
collection.  The TypeScript recursion carries no cycle guard and diverges on
a parent cycle; a terminating run recurses at most (number of groups) deep,
so it is embedded with an explicit fuel argument that the caller instantiates
at one more than the number of stored groups. -/
def getAllSubgroupIds (groups : List IConnectionGroup) : Nat → OptStr → List OptStr
  | 0, gid => [gid]
  | fuel + 1, gid =>
    gid :: (groups.filter (fun g => g.parentId = gid)).flatMap
      (fun g => getAllSubgroupIds groups fuel g.id)

/-- The two content dispositions of removeGroup. -/
inductive ContentAction where
  | delete
  | move
deriving DecidableEq

/-- removeGroup: refuse ROOT; for delete, drop every group of the collected
subtree and every connection whose groupId lies in it; for move, reparent
immediate child connections and groups to ROOT and drop only the target.
Returns false without writing when the group list did not shrink; otherwise
writes connections only when one was modified and always writes groups. -/
def removeGroup (id : String) (contentAction : ContentAction) (st : SettingsState) :
    SettingsState × Bool :=
  let connections := getConnectionsFromSettings st .global
  let groups := getGroupsFromSettings st .global
  let rootGroup := getRootGroup
  if id = rootGroupId then (st, false)
  else
    let result : List IConnectionProfile × Bool × List IConnectionGroup :=
      match contentAction with
      | .delete =>
        let groupsToRemove := getAllSubgroupIds groups (groups.length + 1) (some id)
        let remainingConnections := connections.filter (fun c => c.groupId ∉ groupsToRemove)
        let connectionModified := connections.any (fun c => c.groupId ∈ groupsToRemove)
        let remainingGroups := groups.filter
          (fun g => g.id ∉ groupsToRemove ∧ g.id ≠ some rootGroupId)
        (remainingConnections, connectionModified, remainingGroups)
      | .move =>
        let remainingConnections := connections.map
          (fun c => if c.groupId = some id then { c with groupId := rootGroup.id } else c)
        let connectionModified := connections.any (fun c => c.groupId = some id)
        let remainingGroups := (groups.filter
            (fun g => g.id ≠ some id ∧ g.id ≠ some rootGroupId)).map
          (fun g => if g.parentId = some id then { g with parentId := rootGroup.id } else g)
        (remainingConnections, connectionModified, remainingGroups)
    let remainingConnections := result.1
    let connectionModified := result.2.1
    let remainingGroups := result.2.2
    if remainingGroups.length = groups.length then (st, false)
    else
      let st := if connectionModified
        then writeConnectionsToSettings remainingConnections .global st
        else st
      (writeConnectionGroupsToSettings remainingGroups .global st, true)

/-- The groups with the reserved ROOT id filtered out, as read at the start
of the group integrity pass. -/
def nonRootGroups (raw : List IConnectionGroup) : List IConnectionGroup :=
  raw.filter (fun g => g.id ≠ some rootGroupId)

/-- The legacy ROOT ids: ids of stored groups carrying the reserved root
name but not the reserved root id. -/
def legacyRootIdsOf (raw : List IConnectionGroup) : List OptStr :=
  (raw.filter (fun g => g.name = some rootGroupName ∧ g.id ≠ some rootGroupId)).map
    (fun g => g.id)

/-- The valid group ids of the group pass: the reserved ROOT id plus the ids
of all stored non-ROOT groups. -/
def groupValidIds (raw : List IConnectionGroup) : List OptStr :=
  some rootGroupId :: (nonRootGroups raw).map (fun g => g.id)

/-- Legacy-root migration step on one group. -/
def migrateLegacyGroup (legacy : List OptStr) (g : IConnectionGroup) : IConnectionGroup :=
  if g.parentId ∈ legacy then { g with parentId := some rootGroupId } else g

/-- Orphan-repair step on one group. -/
def orphanFixGroup (valid : List OptStr) (g : IConnectionGroup) : IConnectionGroup :=
  if truthy g.parentId = true ∧ g.parentId ∉ valid then { g with parentId := some rootGroupId }
  else g

/-- Missing-id back-fill on one group. -/
def fillGroupId (freshId : String) (g : IConnectionGroup) : IConnectionGroup :=
  if truthy g.id = true then g else { g with id := some freshId }

/-- Missing-parent back-fill on one group. -/
def fillGroupParent (g : IConnectionGroup) : IConnectionGroup :=
  if truthy g.parentId = true then g else { g with parentId := some rootGroupId }

/-- The loop body of assignConnectionGroupMissingIds on one group: the four
repair steps in source order, the made-changes flag (the disjunction of the
four branch guards, each evaluated on the value it sees in the source), and
the advanced fresh-id counter. -/
def repairGroup (gen : Nat → String) (legacy valid : List OptStr) (n : Nat)
    (g : IConnectionGroup) : IConnectionGroup × Bool × Nat :=
  let g1 := migrateLegacyGroup legacy g
  let g2 := orphanFixGroup valid g1
  let g3 := fillGroupId (gen n) g2
  let g4 := fillGroupParent g3
  let changed : Bool :=
    decide (g.parentId ∈ legacy) ||
    decide (truthy g1.parentId = true ∧ g1.parentId ∉ valid) ||
    !(truthy g2.id) ||
    !(truthy g3.parentId)
  (g4, changed, if truthy g2.id then n else n + 1)

/-- The for-loop of the group pass: repair each group in order, threading the
fresh-id counter and accumulating the made-changes flag. -/
def repairGroupsLoop (gen : Nat → String) (legacy valid : List OptStr) :
    List IConnectionGroup → Nat → List IConnectionGroup × Bool × Nat
  | [], n => ([], false, n)
  | g :: gs, n =>
    let r := repairGroup gen legacy valid n g
    let rest := repairGroupsLoop gen legacy valid gs r.2.2
    (r.1 :: rest.1, r.2.1 || rest.2.1, rest.2.2)

/-- assignConnectionGroupMissingIds: the group integrity pass over the global
scope (the source reads the settings three times for the iterated list, the
legacy set and the valid set; all three reads see the same stored array). -/
def assignConnectionGroupMissingIds (gen : Nat → String) (st : SettingsState) (n : Nat) :
    SettingsState × Nat :=
  let raw := getGroupsFromSettings st .global
  let groups := nonRootGroups raw
  let legacy := legacyRootIdsOf raw
  let valid := groupValidIds raw
  let r := repairGroupsLoop gen legacy valid groups n
  if r.2.1 then (writeConnectionGroupsToSettings r.1 .global st, r.2.2) else (st, r.2.2)

/-- The valid group ids of the profile pass: the reserved ROOT id plus every
profile's own current groupId. -/
def connValidGroupIds (profiles : List IConnectionProfile) : List OptStr :=
  some rootGroupId :: profiles.map (fun p => p.groupId)

/-- Legacy-root migration step on one profile. -/
def profileLegacyFix (legacy : List OptStr) (p : IConnectionProfile) : IConnectionProfile :=
  if p.groupId ∈ legacy then { p with groupId := some rootGroupId } else p

/-- The guard of the orphan-repair branch of the profile pass. -/
def profileOrphanCond (valid : List OptStr) (p : IConnectionProfile) : Bool :=
  truthy p.groupId && decide (p.groupId ∉ valid)

/-- The loop body of assignConnectionMissingIds on one profile: legacy
migration, orphan repair, then populateMissingConnectionIds, with the
made-changes flag and the advanced fresh-id counter. -/
def repairProfile (gen : Nat → String) (legacy valid : List OptStr) (n : Nat)
    (p : IConnectionProfile) : IConnectionProfile × Bool × Nat :=
  let p1 := profileLegacyFix legacy p
  let p2 := if profileOrphanCond valid p1 then { p1 with groupId := some rootGroupId } else p1
  let pop := populateMissingConnectionIds (gen n) p2
  let changed : Bool :=
    decide (p.groupId ∈ legacy) || profileOrphanCond valid p1 || pop.2
  (pop.1, changed, if p2.id = none then n + 1 else n)

/-- The for-loop of the profile pass. -/
def repairProfilesLoop (gen : Nat → String) (legacy valid : List OptStr) :
    List IConnectionProfile → Nat → List IConnectionProfile × Bool × Nat
  | [], n => ([], false, n)
  | p :: ps, n =>
    let r := repairProfile gen legacy valid n p
    let rest := repairProfilesLoop gen legacy valid ps r.2.2
    (r.1 :: rest.1, r.2.1 || rest.2.1, rest.2.2)

/-- assignConnectionMissingIds: the profile integrity pass over the global
scope. -/
def assignConnectionMissingIds (gen : Nat → String) (st : SettingsState) (n : Nat) :
    SettingsState × Nat :=
  let profiles := getConnectionsFromSettings st .global
  let legacy := legacyRootIdsOf (getGroupsFromSettings st .global)
  let valid := connValidGroupIds profiles
  let r := repairProfilesLoop gen legacy valid profiles n
  if r.2.1 then (writeConnectionsToSettings r.1 .global st, r.2.2) else (st, r.2.2)

/-- initialize: the group pass followed by the profile pass. -/
def initMigrationPass (gen : Nat → String) (st : SettingsState) (n : Nat) :
    SettingsState × Nat :=
  let r := assignConnectionGroupMissingIds gen st n
  assignConnectionMissingIds gen r.1 r.2

/-!  General helper lemmas. -/

/-- findIndexBy finds nothing when no element satisfies the predicate. -/
theorem findIndexBy_eq_none {α} {f : α → Bool} {l : List α} (h : ∀ x ∈ l, f x = false) :
    findIndexBy f l = none := by
  induction l with
  | nil => rfl
  | cons x xs ih =>
    have hx := h x (List.mem_cons_self x xs)
    have hrest := ih (fun y hy => h y (List.mem_cons_of_mem x hy))
    simp [findIndexBy, hx, hrest]

/-- A filter that drops some element shortens the list. -/
theorem filter_length_lt {α} {p : α → Bool} {l : List α} {a : α} (ha : a ∈ l)
    (hp : p a = false) : (l.filter p).length < l.length := by
  induction l with
  | nil => cases ha
  | cons x xs ih =>
    rcases List.mem_cons.mp ha with rfl | hmem
    · simp only [List.filter_cons, hp, Bool.false_eq_true, if_false, List.length_cons]
      exact Nat.lt_succ_of_le (List.length_filter_le p xs)
    · cases hpx : p x with
      | false =>
        simp only [List.filter_cons, hpx, Bool.false_eq_true, if_false, List.length_cons]
        exact Nat.lt_succ_of_lt (ih hmem)
      | true =>
        simp only [List.filter_cons, hpx, if_true, List.length_cons]
        exact Nat.succ_lt_succ (ih hmem)

/-- The target id is always a member of its own collected subtree. -/
theorem self_mem_getAllSubgroupIds (groups : List IConnectionGroup) (fuel : Nat) (gid : OptStr) :
    gid ∈ getAllSubgroupIds groups fuel gid := by
  cases fuel <;> simp [getAllSubgroupIds]

/-!  Claim C4: operations on the reserved ROOT id are absorbed. -/

/-- Claim C4: every operation invoked on the reserved ROOT group id is
defensively absorbed and never throws: removeGroup on the ROOT id returns
false with no settings write for either content action, addGroup with a
ROOT-id group resolves without writing, and updateGroup with a ROOT-id group
returns without writing. -/
theorem rootGroup_ops_absorbed (st : SettingsState) (action : ContentAction) (scope : Scope)
    (g : IConnectionGroup) (freshId : String) (hg : g.id = some rootGroupId) :
    removeGroup rootGroupId action st = (st, false) ∧
    addGroup freshId g scope st = st ∧
    updateGroup g st = (.ok (), st) := by
  refine ⟨?_, ?_, ?_⟩
  · simp [removeGroup]
  · simp [addGroup, hg]
  · simp [updateGroup, hg]

/-- Concrete group carrying the reserved ROOT id, for the C4 witness. -/
def gW4 : IConnectionGroup := { id := some rootGroupId, name := some "x", parentId := none }

/-- Concrete empty settings state. -/
def stEmpty : SettingsState :=
  { userConnections := [], workspaceConnections := [], workspaceFolderConnections := [],
    userGroups := [], workspaceGroups := [], workspaceFolderGroups := [], writeLog := [] }

/-- Witness for claim C4 at a concrete state and group. -/
theorem rootGroup_ops_absorbed_witness :
    gW4.id = some rootGroupId ∧
    (removeGroup rootGroupId .delete stEmpty = (stEmpty, false) ∧
     addGroup "fresh" gW4 .user stEmpty = stEmpty ∧
     updateGroup gW4 stEmpty = (.ok (), stEmpty)) :=
  ⟨rfl, rootGroup_ops_absorbed stEmpty .delete .user gW4 "fresh" rfl⟩

/-!  Claim C9: the orphan-repair branch of the profile pass is unreachable. -/

/-- Claim C9: in the profile integrity pass the orphan-repair guard is false
for every profile of the scanned list, because the valid-id set is seeded
with the ROOT id and every profile's own current groupId, and the preceding
legacy migration only ever rewrites a groupId to the ROOT id. -/
theorem profileOrphanCond_unreachable (ps : List IConnectionProfile) (legacy : List OptStr)
    (p : IConnectionProfile) (hp : p ∈ ps) :
    profileOrphanCond (connValidGroupIds ps) (profileLegacyFix legacy p) = false := by
  have hmem : (profileLegacyFix legacy p).groupId ∈ connValidGroupIds ps := by
    unfold profileLegacyFix connValidGroupIds
    by_cases h : p.groupId ∈ legacy
    · simp [h]
    · simp only [h, if_neg, if_false]
      exact List.mem_cons_of_mem _ (List.mem_map_of_mem (fun q => q.groupId) hp)
  unfold profileOrphanCond
  simp [hmem]

/-- Concrete profile for the C9 witness. -/
def pW9 : IConnectionProfile :=
  { id := some "p1", groupId := some "dangling", profileName := some "P",
    server := some "s", connectionString := none }

/-- Witness for claim C9 at a concrete profile list: the orphan guard is
false even though the profile's groupId names no existing group. -/
theorem profileOrphanCond_unreachable_witness :
    pW9 ∈ [pW9] ∧
    profileOrphanCond (connValidGroupIds [pW9]) (profileLegacyFix [] pW9) = false :=
  ⟨List.mem_cons_self pW9 [], profileOrphanCond_unreachable [pW9] [] pW9 (List.mem_cons_self pW9 [])⟩

/-!  Claim C6: updateConnection on an id absent from the returned global
list throws not-found and writes nothing. -/

/-- Claim C6: when the global list returned by getConnections(false) contains
no profile with the argument's id, updateConnection throws the not-found
error and performs no settings write: the resulting state, stored arrays and
write log included, is the input state. -/
theorem updateConnection_notFound (lcmp : String → String → Int) (st : SettingsState)
    (p : IConnectionProfile) (l : List IConnectionProfile)
    (hok : getConnections lcmp false st = .ok l)
    (hid : ∀ q ∈ l, q.id ≠ p.id) :
    updateConnection lcmp p st = (.error (.notFound p.id), st) := by
  have hnone : findIndexBy (fun q => decide (q.id = p.id)) l = none :=
    findIndexBy_eq_none (fun q hq => decide_eq_false (hid q hq))
  simp only [updateConnection, hok, hnone]

/-- Constant comparator used by witnesses that need a locale comparison. -/
def lcmpZero : String → String → Int := fun _ _ => 0

/-- Concrete profile for the C6 witness. -/
def pW6 : IConnectionProfile :=
  { id := some "missing", groupId := some rootGroupId, profileName := some "W",
    server := some "s", connectionString := none }

/-- Witness for claim C6 at the empty state. -/
theorem updateConnection_notFound_witness :
    getConnections lcmpZero false stEmpty = .ok [] ∧
    (∀ q ∈ ([] : List IConnectionProfile), q.id ≠ pW6.id) ∧
    updateConnection lcmpZero pW6 stEmpty = (.error (.notFound pW6.id), stEmpty) :=
  ⟨rfl, fun q hq => absurd hq (List.not_mem_nil q),
    updateConnection_notFound lcmpZero stEmpty pW6 [] rfl
      (fun q hq => absurd hq (List.not_mem_nil q))⟩

/-!  Claim C7: removeGroup on an id matching no stored group. -/

/-- Concrete state for the C7 counterexample: no group has id a, but one
group dangles from a as its parent. -/
def stC7 : SettingsState :=
  { userConnections := [], workspaceConnections := [], workspaceFolderConnections := [],
    userGroups := [{ id := some "b", name := some "B", parentId := some "a" }],
    workspaceGroups := [], workspaceFolderGroups := [], writeLog := [] }

/-- Counterexample to claim C7 as stated: the id a is not the ROOT id and
matches no stored group, yet removeGroup(a, delete) returns true and performs
a settings write, because the recursive subtree collection still captures the
group whose parentId dangles at a. -/
theorem removeGroup_missing_cex :
    ("a" : String) ≠ rootGroupId ∧
    (∀ g ∈ stC7.userGroups, g.id ≠ some "a") ∧
    (removeGroup "a" .delete stC7).2 = true ∧
    (removeGroup "a" .delete stC7).1.writeLog ≠ stC7.writeLog := by
  refine ⟨by decide, by decide, by decide, by decide⟩

/-- Claim C7 as amended: if the id is not the ROOT id, no stored global group
carries the ROOT id, and no stored group's id lies in the collected
removal set of the id (in particular no group has that id and, for the
delete action, nothing dangles below it), then removeGroup returns false and
performs no settings write, for both content actions. -/
theorem removeGroup_notFound_noWrite (st : SettingsState) (id : String)
    (action : ContentAction) (hid : id ≠ rootGroupId)
    (hroot : ∀ g ∈ st.userGroups, g.id ≠ some rootGroupId)
    (hnone : ∀ g ∈ st.userGroups,
      g.id ∉ getAllSubgroupIds st.userGroups (st.userGroups.length + 1) (some id)) :
    removeGroup id action st = (st, false) := by
  cases action with
  | delete =>
    have h1 : st.userGroups.filter
        (fun g => decide (g.id ∉ getAllSubgroupIds st.userGroups
          (st.userGroups.length + 1) (some id) ∧ g.id ≠ some rootGroupId)) = st.userGroups :=
      List.filter_eq_self.mpr (fun g hg => decide_eq_true ⟨hnone g hg, hroot g hg⟩)
    simp only [removeGroup, getGroupsFromSettings, if_neg hid, h1]
    rw [if_pos trivial]
  | move =>
    have h2 : st.userGroups.filter
        (fun g => decide (g.id ≠ some id ∧ g.id ≠ some rootGroupId)) = st.userGroups :=
      List.filter_eq_self.mpr (fun g hg => decide_eq_true
        ⟨fun he => hnone g hg (by rw [he]; exact self_mem_getAllSubgroupIds _ _ _),
         hroot g hg⟩)
    simp only [removeGroup, getGroupsFromSettings, if_neg hid, h2, List.length_map]
    rw [if_pos trivial]

/-- Concrete state for the C7 witness. -/
def stW7 : SettingsState :=
  { userConnections := [], workspaceConnections := [], workspaceFolderConnections := [],
    userGroups := [{ id := some "g1", name := some "G", parentId := some rootGroupId }],
    workspaceGroups := [], workspaceFolderGroups := [], writeLog := [] }

/-- Witness for the amended claim C7 at a concrete state and id. -/
theorem removeGroup_notFound_noWrite_witness :
    ("zzz" : String) ≠ rootGroupId ∧
    (∀ g ∈ stW7.userGroups, g.id ≠ some rootGroupId) ∧
    (∀ g ∈ stW7.userGroups,
      g.id ∉ getAllSubgroupIds stW7.userGroups (stW7.userGroups.length + 1) (some "zzz")) ∧
    removeGroup "zzz" .delete stW7 = (stW7, false) :=
  ⟨by decide, by decide, by decide,
    removeGroup_notFound_noWrite stW7 "zzz" .delete (by decide) (by decide) (by decide)⟩

/-!  Claim C10: removeConnection and updateConnection persist the filtered,
re-sorted global list, losing stored profiles and reordering the array. -/

/-- Code-point comparison of character lists (a concrete consistent
comparator usable in closed computations). -/
def charListLt : List Char → List Char → Bool
  | [], [] => false
  | [], _ :: _ => true
  | _ :: _, [] => false
  | a :: as, b :: bs =>
    if a.toNat < b.toNat then true
    else if b.toNat < a.toNat then false
    else charListLt as bs

/-- A concrete total locale comparison (plain code-point order) used to
demonstrate the claim C10 scenario. -/
def lcmpDemo : String → String → Int := fun a b =>
  if charListLt a.data b.data then -1 else if charListLt b.data a.data then 1 else 0

/-- Stored profile with a valid group, display key T. -/
def pT10 : IConnectionProfile :=
  { id := some "t", groupId := some rootGroupId, profileName := some "T",
    server := some "srv", connectionString := none }

/-- The profile passed to updateConnection: same id as pT10, new name. -/
def pT10up : IConnectionProfile :=
  { id := some "t", groupId := some rootGroupId, profileName := some "T2",
    server := some "srv", connectionString := none }

/-- Stored profile with display key B. -/
def pB10 : IConnectionProfile :=
  { id := some "b", groupId := some rootGroupId, profileName := some "B",
    server := some "srv", connectionString := none }

/-- Stored profile with display key C. -/
def pC10 : IConnectionProfile :=
  { id := some "c", groupId := some rootGroupId, profileName := some "C",
    server := some "srv", connectionString := none }

/-- Stored profile whose groupId matches no existing global group. -/
def ghost10 : IConnectionProfile :=
  { id := some "g", groupId := some "nope", profileName := some "A",
    server := some "srv", connectionString := none }

/-- Stored profile lacking both a connection string and a server name. -/
def infoGhost10 : IConnectionProfile :=
  { id := some "ig", groupId := some rootGroupId, profileName := some "AA",
    server := none, connectionString := none }

/-- Concrete stored state for claim C10: the global array is out of display
order and contains two profiles that getConnections filters out. -/
def st10 : SettingsState :=
  { userConnections := [pT10, pC10, pB10, ghost10, infoGhost10],
    workspaceConnections := [], workspaceFolderConnections := [],
    userGroups := [], workspaceGroups := [], workspaceFolderGroups := [], writeLog := [] }

/-- Claim C10: removeConnection and updateConnection read the global list
through getConnections(false) and persist that filtered, re-sorted list, so
stored global profiles not structurally equal to (respectively not sharing an
id with) the argument are permanently deleted and the persisted array is
reordered, as witnessed at the concrete state st10. -/
theorem readModifyWrite_lossy :
    (removeConnection lcmpDemo pT10 st10).1 = .ok true ∧
    (removeConnection lcmpDemo pT10 st10).2.userConnections = [pB10, pC10] ∧
    ghost10 ∈ st10.userConnections ∧ infoGhost10 ∈ st10.userConnections ∧
    isSameProfile ghost10 pT10 = false ∧ isSameProfile infoGhost10 pT10 = false ∧
    ghost10 ∉ (removeConnection lcmpDemo pT10 st10).2.userConnections ∧
    infoGhost10 ∉ (removeConnection lcmpDemo pT10 st10).2.userConnections ∧
    (removeConnection lcmpDemo pT10 st10).2.userConnections ≠
      st10.userConnections.filter (fun q => !(isSameProfile q pT10)) ∧
    (updateConnection lcmpDemo pT10up st10).1 = .ok () ∧
    (updateConnection lcmpDemo pT10up st10).2.userConnections = [pB10, pC10, pT10up] ∧
    ghost10.id ≠ pT10up.id ∧ infoGhost10.id ≠ pT10up.id ∧
    ghost10 ∉ (updateConnection lcmpDemo pT10up st10).2.userConnections ∧
    infoGhost10 ∉ (updateConnection lcmpDemo pT10up st10).2.userConnections := by
  refine ⟨rfl, by decide, by decide, by decide, by decide, by decide, by decide, by decide,
    by decide, rfl, by decide, by decide, by decide, by decide, by decide⟩

/-!  Claim C3: removeGroup(id, move) reparents exactly the immediate
children. -/

/-- Persisted stray group carrying the reserved ROOT id (C3 counterexample). -/
def gRootStored3 : IConnectionGroup :=
  { id := some rootGroupId, name := some "stray", parentId := none }

/-- The target group of the C3 counterexample. -/
def gA3 : IConnectionGroup :=
  { id := some "a", name := some "A", parentId := some rootGroupId }

/-- Concrete state for the C3 counterexample. -/
def stC3 : SettingsState :=
  { userConnections := [], workspaceConnections := [], workspaceFolderConnections := [],
    userGroups := [gRootStored3, gA3],
    workspaceGroups := [], workspaceFolderGroups := [], writeLog := [] }

/-- Counterexample to claim C3 as stated: removeGroup(a, move) also deletes a
stored group that is not the target (the stray persisted ROOT-id entry), so
it does not remove only the target group on every stored state. -/
theorem removeGroup_move_cex :
    gRootStored3 ∈ stC3.userGroups ∧
    gRootStored3.id ≠ some "a" ∧
    gRootStored3.parentId ≠ some "a" ∧
    (removeGroup "a" .move stC3).1.userGroups = [] := by
  refine ⟨by decide, by decide, by decide, by decide⟩

/-- Claim C3 as amended: on every stored state in which no stored global
group carries the reserved ROOT id, removeGroup(id, move) on an existing
group id removes only the target group, reparents to ROOT exactly the groups
whose parentId equals the id and the connections whose groupId equals the id,
leaves every other group's parentId and every other connection's groupId
unchanged, and leaves the workspace scope untouched. -/
theorem removeGroup_move_exact (st : SettingsState) (idT : String)
    (hroot : ∀ g ∈ st.userGroups, g.id ≠ some rootGroupId)
    (hfound : ∃ g ∈ st.userGroups, g.id = some idT) :
    (removeGroup idT .move st).2 = true ∧
    (removeGroup idT .move st).1.userGroups =
      (st.userGroups.filter (fun g => g.id ≠ some idT)).map
        (fun g => if g.parentId = some idT then { g with parentId := some rootGroupId } else g) ∧
    (removeGroup idT .move st).1.userConnections =
      st.userConnections.map
        (fun c => if c.groupId = some idT then { c with groupId := some rootGroupId } else c) ∧
    (removeGroup idT .move st).1.workspaceConnections = st.workspaceConnections ∧
    (removeGroup idT .move st).1.workspaceFolderConnections = st.workspaceFolderConnections ∧
    (removeGroup idT .move st).1.workspaceGroups = st.workspaceGroups ∧
    (removeGroup idT .move st).1.workspaceFolderGroups = st.workspaceFolderGroups := by
  obtain ⟨gw, hgw, hgwid⟩ := hfound
  have hidne : idT ≠ rootGroupId := by
    intro h
    exact hroot gw hgw (by rw [hgwid, h])
  have hfe : st.userGroups.filter (fun g => decide (g.id ≠ some idT ∧ g.id ≠ some rootGroupId)) =
      st.userGroups.filter (fun g => decide (g.id ≠ some idT)) :=
    List.filter_congr (fun g hg =>
      decide_eq_decide.mpr ⟨fun h => h.1, fun h => ⟨h, hroot g hg⟩⟩)
  have hlen : (st.userGroups.filter (fun g => decide (g.id ≠ some idT))).length <
      st.userGroups.length :=
    filter_length_lt hgw (by simp [hgwid])
  have hcond : ¬(((st.userGroups.filter
      (fun g => decide (g.id ≠ some idT ∧ g.id ≠ some rootGroupId))).map
        (fun g => if g.parentId = some idT then { g with parentId := getRootGroup.id }
          else g)).length = st.userGroups.length) := by
    rw [List.length_map, hfe]
    exact Nat.ne_of_lt hlen
  simp only [removeGroup, getGroupsFromSettings, getConnectionsFromSettings, if_neg hidne]
  rw [if_neg hcond]
  cases hmod : st.userConnections.any (fun c => decide (c.groupId = some idT)) with
  | true =>
    rw [if_pos rfl]
    simp only [writeConnectionGroupsToSettings, writeConnectionsToSettings, hfe, getRootGroup]
    exact ⟨trivial, trivial, trivial, trivial, trivial, trivial, trivial⟩
  | false =>
    have hone : ∀ c ∈ st.userConnections,
        (if c.groupId = some idT then { c with groupId := getRootGroup.id } else c) = c := by
      intro c hc
      have hcc := List.any_eq_false.mp hmod c hc
      rw [if_neg (fun hp => hcc (decide_eq_true hp))]
    have hmapid : st.userConnections.map
        (fun c => if c.groupId = some idT then { c with groupId := getRootGroup.id } else c) =
        st.userConnections := by
      rw [List.map_congr_left hone]
      simp
    rw [if_neg (by simp : ¬(false = true))]
    simp only [writeConnectionGroupsToSettings, hfe, getRootGroup]
    refine ⟨trivial, trivial, ?_, trivial, trivial, trivial, trivial⟩
    simp only [getRootGroup] at hmapid
    exact hmapid.symm

/-- Immediate child group of the C3 witness tree. -/
def gB3w : IConnectionGroup := { id := some "b", name := some "B", parentId := some "a" }

/-- Target group of the C3 witness tree. -/
def gA3w : IConnectionGroup := { id := some "a", name := some "A", parentId := some rootGroupId }

/-- Connection owned by the target group in the C3 witness. -/
def c1W3 : IConnectionProfile :=
  { id := some "c1", groupId := some "a", profileName := some "C1",
    server := some "srv", connectionString := none }

/-- Connection owned by the grandchild-level group in the C3 witness. -/
def c2W3 : IConnectionProfile :=
  { id := some "c2", groupId := some "b", profileName := some "C2",
    server := some "srv", connectionString := none }

/-- Concrete state for the C3 witness: ROOT owns a, a owns b, with one
connection in each. -/
def stW3 : SettingsState :=
  { userConnections := [c1W3, c2W3], workspaceConnections := [],
    workspaceFolderConnections := [], userGroups := [gA3w, gB3w],
    workspaceGroups := [], workspaceFolderGroups := [], writeLog := [] }

/-- Witness for the amended claim C3 at the concrete tree stW3. -/
theorem removeGroup_move_exact_witness :
    (∀ g ∈ stW3.userGroups, g.id ≠ some rootGroupId) ∧
    (∃ g ∈ stW3.userGroups, g.id = some "a") ∧
    ((removeGroup "a" .move stW3).2 = true ∧
     (removeGroup "a" .move stW3).1.userGroups =
       (stW3.userGroups.filter (fun g => g.id ≠ some "a")).map
         (fun g => if g.parentId = some "a" then { g with parentId := some rootGroupId }
           else g) ∧
     (removeGroup "a" .move stW3).1.userConnections =
       stW3.userConnections.map
         (fun c => if c.groupId = some "a" then { c with groupId := some rootGroupId } else c) ∧
     (removeGroup "a" .move stW3).1.workspaceConnections = stW3.workspaceConnections ∧
     (removeGroup "a" .move stW3).1.workspaceFolderConnections =
       stW3.workspaceFolderConnections ∧
     (removeGroup "a" .move stW3).1.workspaceGroups = stW3.workspaceGroups ∧
     (removeGroup "a" .move stW3).1.workspaceFolderGroups = stW3.workspaceFolderGroups) :=
  ⟨by decide, by decide, removeGroup_move_exact stW3 "a" (by decide) (by decide)⟩

/-!  Claim C2: removeGroup(id, delete) removes exactly the collected
subtree. -/

/-- One parent edge: b is the id of a stored group whose parentId is a. -/
def childRel (groups : List IConnectionGroup) (a b : OptStr) : Prop :=
  ∃ g ∈ groups, g.parentId = a ∧ g.id = b

/-- Growing the fuel of the subtree collection only grows the collected
set. -/
theorem mem_getAllSubgroupIds_succ (groups : List IConnectionGroup) {fuel : Nat}
    {start x : OptStr} (h : x ∈ getAllSubgroupIds groups fuel start) :
    x ∈ getAllSubgroupIds groups (fuel + 1) start := by
  induction fuel generalizing start with
  | zero =>
    have hx : x = start := by simpa [getAllSubgroupIds] using h
    subst hx
    exact self_mem_getAllSubgroupIds groups 1 x
  | succ n ih =>
    rcases List.mem_cons.mp h with rfl | hx
    · exact List.mem_cons_self _ _
    · obtain ⟨g, hg, hxg⟩ := List.mem_flatMap.mp hx
      exact List.mem_cons_of_mem _ (List.mem_flatMap.mpr ⟨g, hg, ih hxg⟩)

/-- Soundness: every collected id is reachable from the start id along
parent edges. -/
theorem getAllSubgroupIds_sound (groups : List IConnectionGroup) {fuel : Nat}
    {start x : OptStr} (h : x ∈ getAllSubgroupIds groups fuel start) :
    Relation.ReflTransGen (childRel groups) start x := by
  induction fuel generalizing start with
  | zero =>
    have hx : x = start := by simpa [getAllSubgroupIds] using h
    subst hx
    exact Relation.ReflTransGen.refl
  | succ n ih =>
    rcases List.mem_cons.mp h with rfl | hx
    · exact Relation.ReflTransGen.refl
    · obtain ⟨g, hg, hxg⟩ := List.mem_flatMap.mp hx
      have hgm := List.mem_filter.mp hg
      have hpar : g.parentId = start := of_decide_eq_true hgm.2
      exact Relation.ReflTransGen.trans
        (Relation.ReflTransGen.single ⟨g, hgm.1, hpar, rfl⟩) (ih hxg)

/-- One parent edge out of a collected id lands in the collection at one
more unit of fuel. -/
theorem getAllSubgroupIds_step (groups : List IConnectionGroup) {fuel : Nat}
    {start x z : OptStr} (h : x ∈ getAllSubgroupIds groups fuel start)
    (hch : childRel groups x z) :
    z ∈ getAllSubgroupIds groups (fuel + 1) start := by
  induction fuel generalizing start with
  | zero =>
    have hx : x = start := by simpa [getAllSubgroupIds] using h
    subst hx
    obtain ⟨g, hg, hpar, hid⟩ := hch
    apply List.mem_cons_of_mem
    apply List.mem_flatMap.mpr
    refine ⟨g, List.mem_filter.mpr ⟨hg, decide_eq_true hpar⟩, ?_⟩
    rw [← hid]
    exact self_mem_getAllSubgroupIds groups 0 g.id
  | succ n ih =>
    rcases List.mem_cons.mp h with rfl | hx
    · obtain ⟨g, hg, hpar, hid⟩ := hch
      apply List.mem_cons_of_mem
      apply List.mem_flatMap.mpr
      refine ⟨g, List.mem_filter.mpr ⟨hg, decide_eq_true hpar⟩, ?_⟩
      rw [← hid]
      exact self_mem_getAllSubgroupIds groups (n + 1) g.id
    · obtain ⟨g, hg, hxg⟩ := List.mem_flatMap.mp hx
      exact List.mem_cons_of_mem _ (List.mem_flatMap.mpr ⟨g, hg, ih hxg⟩)

/-- Completeness: when the collection has converged at the used fuel (one
more unit of fuel collects nothing new, which holds whenever the source
recursion terminates), every id reachable along parent edges is collected. -/
theorem getAllSubgroupIds_complete (groups : List IConnectionGroup) {fuel : Nat}
    {start x : OptStr}
    (hstab : ∀ y ∈ getAllSubgroupIds groups (fuel + 1) start,
      y ∈ getAllSubgroupIds groups fuel start)
    (h : Relation.ReflTransGen (childRel groups) start x) :
    x ∈ getAllSubgroupIds groups fuel start := by
  induction h with
  | refl => exact self_mem_getAllSubgroupIds groups fuel start
  | tail hxy hch ih => exact hstab _ (getAllSubgroupIds_step groups ih hch)

/-- Persisted stray group carrying the reserved ROOT id (C2 counterexample). -/
def gRootStored2 : IConnectionGroup :=
  { id := some rootGroupId, name := some "stray", parentId := none }

/-- The target group of the C2 counterexample. -/
def gA2 : IConnectionGroup :=
  { id := some "a", name := some "A", parentId := some rootGroupId }

/-- Concrete state for the C2 counterexample. -/
def stC2 : SettingsState :=
  { userConnections := [], workspaceConnections := [], workspaceFolderConnections := [],
    userGroups := [gRootStored2, gA2],
    workspaceGroups := [], workspaceFolderGroups := [], writeLog := [] }

/-- Counterexample to claim C2 as stated: removeGroup(a, delete) also deletes
a stored group that lies outside the removed set (the stray persisted
ROOT-id entry is not a transitive descendant of a, yet it is gone), so not
every group outside the removed set is left unchanged. -/
theorem removeGroup_delete_cex :
    gRootStored2 ∈ stC2.userGroups ∧
    gRootStored2.id ∉
      getAllSubgroupIds stC2.userGroups (stC2.userGroups.length + 1) (some "a") ∧
    ¬ Relation.ReflTransGen (childRel stC2.userGroups) (some "a") gRootStored2.id ∧
    (removeGroup "a" .delete stC2).1.userGroups = [] := by
  refine ⟨by decide, by decide, ?_, by decide⟩
  intro h
  exact absurd (@getAllSubgroupIds_complete stC2.userGroups (stC2.userGroups.length + 1)
    (some "a") gRootStored2.id (by decide) h) (by decide)

/-- Claim C2 as amended: on every stored state in which no stored global
group carries the reserved ROOT id and the recursive descendant collection
of the id has converged at the fuel the model uses (which holds whenever the
source recursion terminates, in particular on trees), removeGroup(id, delete)
on an existing group id removes from the global scope exactly the groups
whose id lies in the collected set, which coincides with the id together
with its transitive descendants along parent edges, and exactly the
connections whose groupId lies in that set; every other global record and
the whole workspace scope are unchanged. -/
theorem removeGroup_delete_exact (st : SettingsState) (idT : String)
    (hroot : ∀ g ∈ st.userGroups, g.id ≠ some rootGroupId)
    (hfound : ∃ g ∈ st.userGroups, g.id = some idT)
    (hstab : ∀ y ∈ getAllSubgroupIds st.userGroups (st.userGroups.length + 2) (some idT),
      y ∈ getAllSubgroupIds st.userGroups (st.userGroups.length + 1) (some idT)) :
    (removeGroup idT .delete st).2 = true ∧
    (removeGroup idT .delete st).1.userGroups =
      st.userGroups.filter (fun g =>
        g.id ∉ getAllSubgroupIds st.userGroups (st.userGroups.length + 1) (some idT)) ∧
    (removeGroup idT .delete st).1.userConnections =
      st.userConnections.filter (fun c =>
        c.groupId ∉ getAllSubgroupIds st.userGroups (st.userGroups.length + 1) (some idT)) ∧
    (∀ x, x ∈ getAllSubgroupIds st.userGroups (st.userGroups.length + 1) (some idT) ↔
      Relation.ReflTransGen (childRel st.userGroups) (some idT) x) ∧
    (removeGroup idT .delete st).1.workspaceConnections = st.workspaceConnections ∧
    (removeGroup idT .delete st).1.workspaceFolderConnections =
      st.workspaceFolderConnections ∧
    (removeGroup idT .delete st).1.workspaceGroups = st.workspaceGroups ∧
    (removeGroup idT .delete st).1.workspaceFolderGroups = st.workspaceFolderGroups := by
  obtain ⟨gw, hgw, hgwid⟩ := hfound
  have hidne : idT ≠ rootGroupId := by
    intro h
    exact hroot gw hgw (by rw [hgwid, h])
  have hiff : ∀ x, x ∈ getAllSubgroupIds st.userGroups (st.userGroups.length + 1) (some idT) ↔
      Relation.ReflTransGen (childRel st.userGroups) (some idT) x :=
    fun x => ⟨fun h => getAllSubgroupIds_sound st.userGroups h,
      fun h => getAllSubgroupIds_complete st.userGroups hstab h⟩
  have hfe : st.userGroups.filter (fun g =>
        decide (g.id ∉ getAllSubgroupIds st.userGroups (st.userGroups.length + 1) (some idT) ∧
          g.id ≠ some rootGroupId)) =
      st.userGroups.filter (fun g =>
        decide (g.id ∉ getAllSubgroupIds st.userGroups (st.userGroups.length + 1) (some idT))) :=
    List.filter_congr (fun g hg =>
      decide_eq_decide.mpr ⟨fun h => h.1, fun h => ⟨h, hroot g hg⟩⟩)
  have hgwmem : gw.id ∈ getAllSubgroupIds st.userGroups (st.userGroups.length + 1) (some idT) := by
    rw [hgwid]
    exact self_mem_getAllSubgroupIds _ _ _
  have hlen : (st.userGroups.filter (fun g =>
      decide (g.id ∉ getAllSubgroupIds st.userGroups (st.userGroups.length + 1) (some idT)))).length <
      st.userGroups.length :=
    filter_length_lt hgw (by simp [hgwmem])
  have hcond : ¬((st.userGroups.filter (fun g =>
      decide (g.id ∉ getAllSubgroupIds st.userGroups (st.userGroups.length + 1) (some idT) ∧
        g.id ≠ some rootGroupId))).length = st.userGroups.length) := by
    rw [hfe]
    exact Nat.ne_of_lt hlen
  simp only [removeGroup, getGroupsFromSettings, getConnectionsFromSettings, if_neg hidne]
  rw [if_neg hcond]
  cases hmod : st.userConnections.any (fun c =>
      decide (c.groupId ∈ getAllSubgroupIds st.userGroups (st.userGroups.length + 1) (some idT))) with
  | true =>
    rw [if_pos rfl]
    simp only [writeConnectionGroupsToSettings, writeConnectionsToSettings, hfe]
    exact ⟨trivial, trivial, trivial, hiff, trivial, trivial, trivial, trivial⟩
  | false =>
    have hkeep : ∀ c ∈ st.userConnections,
        (decide (c.groupId ∉
          getAllSubgroupIds st.userGroups (st.userGroups.length + 1) (some idT))) = true := by
      intro c hc
      have hcc := List.any_eq_false.mp hmod c hc
      exact decide_eq_true (fun hp => hcc (decide_eq_true hp))
    have hfc : st.userConnections.filter (fun c =>
        decide (c.groupId ∉
          getAllSubgroupIds st.userGroups (st.userGroups.length + 1) (some idT))) =
        st.userConnections := List.filter_eq_self.mpr hkeep
    rw [if_neg (by simp : ¬(false = true))]
    simp only [writeConnectionGroupsToSettings, hfe]
    refine ⟨trivial, trivial, ?_, hiff, trivial, trivial, trivial, trivial⟩
    exact hfc.symm

/-- Target group of the C2 witness tree. -/
def gA2w : IConnectionGroup := { id := some "a", name := some "A", parentId := some rootGroupId }

/-- Descendant group of the C2 witness tree. -/
def gB2w : IConnectionGroup := { id := some "b", name := some "B", parentId := some "a" }

/-- Unrelated sibling group of the C2 witness tree. -/
def gD2w : IConnectionGroup := { id := some "d", name := some "D", parentId := some rootGroupId }

/-- Connection under the target group (C2 witness). -/
def c1W2 : IConnectionProfile :=
  { id := some "c1", groupId := some "a", profileName := some "C1",
    server := some "srv", connectionString := none }

/-- Connection under the descendant group (C2 witness). -/
def c2W2 : IConnectionProfile :=
  { id := some "c2", groupId := some "b", profileName := some "C2",
    server := some "srv", connectionString := none }

/-- Connection under the unrelated sibling (C2 witness). -/
def c3W2 : IConnectionProfile :=
  { id := some "c3", groupId := some "d", profileName := some "C3",
    server := some "srv", connectionString := none }

/-- Concrete state for the C2 witness: ROOT owns a and d, a owns b, each
group holding one connection. -/
def stW2 : SettingsState :=
  { userConnections := [c1W2, c2W2, c3W2], workspaceConnections := [],
    workspaceFolderConnections := [], userGroups := [gA2w, gB2w, gD2w],
    workspaceGroups := [], workspaceFolderGroups := [], writeLog := [] }

/-- Witness for the amended claim C2 at the concrete tree stW2. -/
theorem removeGroup_delete_exact_witness :
    (∀ g ∈ stW2.userGroups, g.id ≠ some rootGroupId) ∧
    (∃ g ∈ stW2.userGroups, g.id = some "a") ∧
    (∀ y ∈ getAllSubgroupIds stW2.userGroups (stW2.userGroups.length + 2) (some "a"),
      y ∈ getAllSubgroupIds stW2.userGroups (stW2.userGroups.length + 1) (some "a")) ∧
    ((removeGroup "a" .delete stW2).2 = true ∧
     (removeGroup "a" .delete stW2).1.userGroups =
       stW2.userGroups.filter (fun g =>
         g.id ∉ getAllSubgroupIds stW2.userGroups (stW2.userGroups.length + 1) (some "a")) ∧
     (removeGroup "a" .delete stW2).1.userConnections =
       stW2.userConnections.filter (fun c =>
         c.groupId ∉ getAllSubgroupIds stW2.userGroups (stW2.userGroups.length + 1) (some "a")) ∧
     (∀ x, x ∈ getAllSubgroupIds stW2.userGroups (stW2.userGroups.length + 1) (some "a") ↔
       Relation.ReflTransGen (childRel stW2.userGroups) (some "a") x) ∧
     (removeGroup "a" .delete stW2).1.workspaceConnections = stW2.workspaceConnections ∧
     (removeGroup "a" .delete stW2).1.workspaceFolderConnections =
       stW2.workspaceFolderConnections ∧
     (removeGroup "a" .delete stW2).1.workspaceGroups = stW2.workspaceGroups ∧
     (removeGroup "a" .delete stW2).1.workspaceFolderGroups = stW2.workspaceFolderGroups) :=
  ⟨by decide, by decide, by decide,
    removeGroup_delete_exact stW2 "a" (by decide) (by decide) (by decide)⟩

/-!  Claim C5: ordering of getConnections(true). -/

/-- The ordering the display comparator induces on profiles: the derived
display key of the first is at most that of the second under lcmp. -/
def sortKeyLe (lcmp : String → String → Int) (a b : IConnectionProfile) : Prop :=
  lcmp (keyStr a) (keyStr b) ≤ 0

/-- A successful insertion produces a permutation of the element consed onto
the input. -/
theorem insertSorted_perm {α} {cmp : α → α → Except JsErr Int} {x : α} {l l' : List α}
    (h : insertSorted cmp x l = .ok l') : l'.Perm (x :: l) := by
  induction l generalizing l' with
  | nil =>
    simp only [insertSorted, Except.ok.injEq] at h
    subst h
    exact List.Perm.refl _
  | cons y ys ih =>
    simp only [insertSorted] at h
    cases hc : cmp x y with
    | error e => simp [hc] at h
    | ok c =>
      simp only [hc] at h
      by_cases hle : c ≤ 0
      · rw [if_pos hle] at h
        simp only [Except.ok.injEq] at h
        subst h
        exact List.Perm.refl _
      · rw [if_neg hle] at h
        cases hrec : insertSorted cmp x ys with
        | error e => simp [hrec] at h
        | ok zs =>
          simp only [hrec, Except.ok.injEq] at h
          subst h
          exact ((ih hrec).cons y).trans (List.Perm.swap x y ys)

/-- A successful sort produces a permutation of its input. -/
theorem sortByCmp_perm {α} {cmp : α → α → Except JsErr Int} {l l' : List α}
    (h : sortByCmp cmp l = .ok l') : l'.Perm l := by
  induction l generalizing l' with
  | nil =>
    simp only [sortByCmp, Except.ok.injEq] at h
    subst h
    exact List.Perm.refl _
  | cons x xs ih =>
    simp only [sortByCmp] at h
    cases hs : sortByCmp cmp xs with
    | error e => simp [hs] at h
    | ok m =>
      simp only [hs] at h
      exact (insertSorted_perm h).trans ((ih hs).cons x)

/-- A successful comparison pins down the compared value: the left key is
defined and the result is the comparator on the derived keys. -/
theorem cmpConn_ok_val {lcmp : String → String → Int} {x y : IConnectionProfile} {c : Int}
    (hc : cmpConn lcmp x y = .ok c) : c = lcmp (keyStr x) (keyStr y) := by
  unfold cmpConn at hc
  cases hk : connSortKey x with
  | none => rw [hk] at hc; exact absurd hc (by simp)
  | some ka =>
    rw [hk] at hc
    simp only [Except.ok.injEq] at hc
    rw [← hc]
    unfold keyStr
    rw [hk]
    rfl

/-- Inserting into a list sorted by the display ordering keeps it sorted,
for any total and transitive locale comparison. -/
theorem insertSorted_pairwise {lcmp : String → String → Int}
    (htot : ∀ a b : String, lcmp a b ≤ 0 ∨ lcmp b a ≤ 0)
    (htrans : ∀ a b c : String, lcmp a b ≤ 0 → lcmp b c ≤ 0 → lcmp a c ≤ 0)
    {x : IConnectionProfile} {l l' : List IConnectionProfile}
    (hs : List.Pairwise (sortKeyLe lcmp) l)
    (h : insertSorted (cmpConn lcmp) x l = .ok l') :
    List.Pairwise (sortKeyLe lcmp) l' := by
  induction l generalizing l' with
  | nil =>
    simp only [insertSorted, Except.ok.injEq] at h
    subst h
    exact List.pairwise_singleton _ _
  | cons y ys ih =>
    simp only [insertSorted] at h
    cases hc : cmpConn lcmp x y with
    | error e => simp [hc] at h
    | ok c =>
      simp only [hc] at h
      have hcval : c = lcmp (keyStr x) (keyStr y) := cmpConn_ok_val hc
      by_cases hle : c ≤ 0
      · rw [if_pos hle] at h
        simp only [Except.ok.injEq] at h
        subst h
        have hxy : sortKeyLe lcmp x y := by
          unfold sortKeyLe
          rw [← hcval]
          exact hle
        refine List.Pairwise.cons ?_ hs
        intro z hz
        rcases List.mem_cons.mp hz with rfl | hzys
        · exact hxy
        · exact htrans _ _ _ hxy ((List.pairwise_cons.mp hs).1 z hzys)
      · rw [if_neg hle] at h
        cases hrec : insertSorted (cmpConn lcmp) x ys with
        | error e => simp [hrec] at h
        | ok zs =>
          simp only [hrec, Except.ok.injEq] at h
          subst h
          have hzs := ih (List.pairwise_cons.mp hs).2 hrec
          refine List.Pairwise.cons ?_ hzs
          intro z hz
          rcases List.mem_cons.mp ((insertSorted_perm hrec).mem_iff.mp hz) with rfl | hzys
          · cases htot (keyStr z) (keyStr y) with
            | inl h1 => exact absurd (by rw [hcval]; exact h1) hle
            | inr h2 => exact h2
          · exact (List.pairwise_cons.mp hs).1 z hzys

/-- A successful sort by the display comparator is sorted by the display
ordering, for any total and transitive locale comparison. -/
theorem sortByCmp_pairwise {lcmp : String → String → Int}
    (htot : ∀ a b : String, lcmp a b ≤ 0 ∨ lcmp b a ≤ 0)
    (htrans : ∀ a b c : String, lcmp a b ≤ 0 → lcmp b c ≤ 0 → lcmp a c ≤ 0)
    {l l' : List IConnectionProfile}
    (h : sortByCmp (cmpConn lcmp) l = .ok l') :
    List.Pairwise (sortKeyLe lcmp) l' := by
  induction l generalizing l' with
  | nil =>
    simp only [sortByCmp, Except.ok.injEq] at h
    subst h
    exact List.Pairwise.nil
  | cons x xs ih =>
    simp only [sortByCmp] at h
    cases hs : sortByCmp (cmpConn lcmp) xs with
    | error e => simp [hs] at h
    | ok m =>
      simp only [hs] at h
      exact insertSorted_pairwise htot htrans (ih hs) h

/-- The positive-length guard around the missing-information filter is
redundant: on an empty list the filter is the identity. -/
theorem lenGuard_filter (profiles : List IConnectionProfile) (f : IConnectionProfile → Bool) :
    (if profiles.length > 0 then profiles.filter f else profiles) = profiles.filter f := by
  cases profiles with
  | nil => simp
  | cons x xs => simp

/-- Claim C5: whenever getConnections(true) returns a list, that list is a
global block followed by a workspace block, and each block is sorted by the
derived display key (profileName if set, else server, else connection
string) under the ambient locale comparison, assumed total and transitive. -/
theorem getConnections_ordered (lcmp : String → String → Int) (st : SettingsState)
    (l : List IConnectionProfile)
    (htot : ∀ a b : String, lcmp a b ≤ 0 ∨ lcmp b a ≤ 0)
    (htrans : ∀ a b c : String, lcmp a b ≤ 0 → lcmp b c ≤ 0 → lcmp a c ≤ 0)
    (hok : getConnections lcmp true st = .ok l) :
    ∃ lg lw, l = lg ++ lw ∧
      (∀ p ∈ lg, p ∈ getConnectionsFromSettings st ConfigTarget.global) ∧
      (∀ p ∈ lw, p ∈ getConnectionsFromSettings st ConfigTarget.workspace) ∧
      List.Pairwise (sortKeyLe lcmp) lg ∧
      List.Pairwise (sortKeyLe lcmp) lw := by
  cases hu : sortByCmp (cmpConn lcmp) (getConnectionsFromSettings st ConfigTarget.global) with
  | error e =>
    simp only [getConnections, hu] at hok
    exact absurd hok (by simp)
  | ok us =>
    cases hw : sortByCmp (cmpConn lcmp)
        ((getConnectionsFromSettings st ConfigTarget.workspace).filter
          (fun p => truthy p.id)) with
    | error e =>
      simp only [getConnections, hu, eq_self_iff_true, if_true, hw] at hok
      exact absurd hok (by simp)
    | ok wss =>
      simp only [getConnections, hu, eq_self_iff_true, if_true, hw, lenGuard_filter,
        Except.ok.injEq] at hok
      subst hok
      refine ⟨(us.filter connHasInfo).filter
          (fun p => decide (p.groupId ∈ (getGroups st ConfigTarget.global).map (fun g => g.id))),
        (wss.filter connHasInfo).filter
          (fun p => decide (p.groupId ∈ (getGroups st ConfigTarget.global).map (fun g => g.id))),
        ?_, ?_, ?_, ?_, ?_⟩
      · rw [List.filter_append, List.filter_append]
      · intro p hp
        exact (sortByCmp_perm hu).mem_iff.mp (List.mem_filter.mp (List.mem_filter.mp hp).1).1
      · intro p hp
        have hws := (sortByCmp_perm hw).mem_iff.mp
          (List.mem_filter.mp (List.mem_filter.mp hp).1).1
        exact (List.mem_filter.mp hws).1
      · exact List.Pairwise.sublist
          (List.Sublist.trans (List.filter_sublist _) (List.filter_sublist _))
          (sortByCmp_pairwise htot htrans hu)
      · exact List.Pairwise.sublist
          (List.Sublist.trans (List.filter_sublist _) (List.filter_sublist _))
          (sortByCmp_pairwise htot htrans hw)

/-- Global profile of the C5 witness state. -/
def u1W5 : IConnectionProfile :=
  { id := some "u1", groupId := some rootGroupId, profileName := some "U",
    server := some "srv", connectionString := none }

/-- Workspace profile of the C5 witness state. -/
def w1W5 : IConnectionProfile :=
  { id := some "w1", groupId := some rootGroupId, profileName := some "W",
    server := some "srv", connectionString := none }

/-- Concrete state for the C5 witness. -/
def stW5 : SettingsState :=
  { userConnections := [u1W5], workspaceConnections := [w1W5],
    workspaceFolderConnections := [], userGroups := [],
    workspaceGroups := [], workspaceFolderGroups := [], writeLog := [] }

/-- Witness for claim C5 at a concrete state under the constant comparator. -/
theorem getConnections_ordered_witness :
    (∀ a b : String, lcmpZero a b ≤ 0 ∨ lcmpZero b a ≤ 0) ∧
    (∀ a b c : String, lcmpZero a b ≤ 0 → lcmpZero b c ≤ 0 → lcmpZero a c ≤ 0) ∧
    getConnections lcmpZero true stW5 = .ok [u1W5, w1W5] ∧
    (∃ lg lw, [u1W5, w1W5] = lg ++ lw ∧
      (∀ p ∈ lg, p ∈ getConnectionsFromSettings stW5 ConfigTarget.global) ∧
      (∀ p ∈ lw, p ∈ getConnectionsFromSettings stW5 ConfigTarget.workspace) ∧
      List.Pairwise (sortKeyLe lcmpZero) lg ∧
      List.Pairwise (sortKeyLe lcmpZero) lw) :=
  ⟨fun _ _ => Or.inl (Int.le_refl 0), fun _ _ _ h1 _ => h1, rfl,
    getConnections_ordered lcmpZero stW5 [u1W5, w1W5]
      (fun _ _ => Or.inl (Int.le_refl 0)) (fun _ _ _ h1 _ => h1) rfl⟩

/-!  Claim C8: addConnection then getConnectionById round trip. -/

/-- A truthy value is a present value. -/
theorem truthy_isSome {o : OptStr} (h : truthy o = true) : o.isSome = true := by
  cases o with
  | none => simp [truthy] at h
  | some s => rfl

/-- A profile that passes the missing-information filter has a defined sort
key. -/
theorem connSortKey_isSome_of_info {p : IConnectionProfile} (h : connHasInfo p = true) :
    (connSortKey p).isSome = true := by
  unfold connSortKey
  by_cases h1 : truthy p.profileName = true
  · rw [if_pos h1]
    exact truthy_isSome h1
  · rw [if_neg h1]
    by_cases h2 : truthy p.server = true
    · rw [if_pos h2]
      exact truthy_isSome h2
    · rw [if_neg h2]
      unfold connHasInfo at h
      cases hcs : truthy p.connectionString with
      | true => exact truthy_isSome hcs
      | false =>
        rw [hcs] at h
        simp only [Bool.false_or, Bool.and_eq_true] at h
        exact absurd h.1 h2

/-- Insertion by the display comparator succeeds whenever the inserted
element has a defined sort key (only the inserted element is ever the left
operand of the comparison). -/
theorem insertSorted_ok {lcmp : String → String → Int} {x : IConnectionProfile}
    (hx : (connSortKey x).isSome = true) (l : List IConnectionProfile) :
    ∃ l', insertSorted (cmpConn lcmp) x l = .ok l' := by
  induction l with
  | nil => exact ⟨[x], rfl⟩
  | cons y ys ih =>
    obtain ⟨ka, hka⟩ := Option.isSome_iff_exists.mp hx
    have hc : cmpConn lcmp x y = .ok (lcmp ka (keyStr y)) := by
      unfold cmpConn
      rw [hka]
    by_cases hle : lcmp ka (keyStr y) ≤ 0
    · exact ⟨x :: y :: ys, by simp only [insertSorted, hc]; rw [if_pos hle]⟩
    · obtain ⟨zs, hzs⟩ := ih
      refine ⟨y :: zs, ?_⟩
      simp only [insertSorted, hc]
      rw [if_neg hle, hzs]

/-- Sorting by the display comparator succeeds whenever every element has a
defined sort key. -/
theorem sortByCmp_ok {lcmp : String → String → Int} {l : List IConnectionProfile}
    (h : ∀ x ∈ l, (connSortKey x).isSome = true) :
    ∃ l', sortByCmp (cmpConn lcmp) l = .ok l' := by
  induction l with
  | nil => exact ⟨[], rfl⟩
  | cons x xs ih =>
    obtain ⟨m, hm⟩ := ih (fun y hy => h y (List.mem_cons_of_mem x hy))
    obtain ⟨l', hl'⟩ := insertSorted_ok (h x (List.mem_cons_self x xs)) m
    refine ⟨l', ?_⟩
    simp only [sortByCmp, hm]
    exact hl'

/-- find? returns the unique element satisfying the predicate. -/
theorem find_unique {α} {f : α → Bool} {l : List α} {a : α} (hmem : a ∈ l)
    (hfa : f a = true) (huniq : ∀ x ∈ l, f x = true → x = a) :
    l.find? f = some a := by
  induction l with
  | nil => cases hmem
  | cons x xs ih =>
    by_cases hfx : f x = true
    · have hxa : x = a := huniq x (List.mem_cons_self x xs) hfx
      simp [List.find?_cons, hfx, hxa, hfa]
    · have hxa : x ≠ a := fun he => hfx (he ▸ hfa)
      have hmem2 : a ∈ xs := by
        rcases List.mem_cons.mp hmem with rfl | hm
        · exact absurd rfl hxa
        · exact hm
      have := ih hmem2 (fun y hy hfy => huniq y (List.mem_cons_of_mem x hy) hfy)
      simp [List.find?_cons, hfx, this]

/-- populateMissingConnectionIds changes at most the id and group fields. -/
theorem populate_preserves (freshId : String) (p : IConnectionProfile) :
    ((populateMissingConnectionIds freshId p).1).profileName = p.profileName ∧
    ((populateMissingConnectionIds freshId p).1).server = p.server ∧
    ((populateMissingConnectionIds freshId p).1).connectionString = p.connectionString := by
  unfold populateMissingConnectionIds
  by_cases h1 : p.groupId = none <;> by_cases h2 : p.id = none <;>
    simp [h1, h2]

/-- The back-filled profile is structurally equal to the original per
isSameProfile. -/
theorem populate_isSame (freshId : String) (p : IConnectionProfile) :
    isSameProfile (populateMissingConnectionIds freshId p).1 p = true := by
  obtain ⟨h1, h2, h3⟩ := populate_preserves freshId p
  unfold isSameProfile
  exact decide_eq_true ⟨h1, h2, h3⟩

/-- Claim C8 as amended: when the back-filled profile passes the
getConnections filters (it has connection information and its groupId names
an existing global group), no stored profile in any scope shares its id, and
every stored profile has a defined sort key, then addConnection(p) followed
by getConnectionById on p's id returns exactly the back-filled profile,
which is structurally equal to p under isSameProfile. -/
theorem addConnection_roundTrip (lcmp : String → String → Int) (st : SettingsState)
    (p : IConnectionProfile) (freshId : String) (pid : String)
    (hpid : ((populateMissingConnectionIds freshId p).1).id = some pid)
    (hinfo : connHasInfo (populateMissingConnectionIds freshId p).1 = true)
    (hgrp : ((populateMissingConnectionIds freshId p).1).groupId ∈
      (getGroups st ConfigTarget.global).map (fun g => g.id))
    (huniq : ∀ q ∈ st.userConnections ++
      (st.workspaceConnections ++ st.workspaceFolderConnections), q.id ≠ some pid)
    (hkeys : ∀ q ∈ st.userConnections ++
      (st.workspaceConnections ++ st.workspaceFolderConnections),
      (connSortKey q).isSome = true) :
    getConnectionById lcmp pid (addConnection freshId p .user st) =
      .ok (some (populateMissingConnectionIds freshId p).1) ∧
    isSameProfile (populateMissingConnectionIds freshId p).1 p = true := by
  set p' := (populateMissingConnectionIds freshId p).1 with hp'
  have hst' : addConnection freshId p .user st =
      { st with
        userConnections := st.userConnections.filter (fun q => !(isSameProfile q p')) ++ [p'],
        writeLog := .connections .global :: st.writeLog } := rfl
  have hkeysU : ∀ q ∈ st.userConnections, (connSortKey q).isSome = true :=
    fun q hq => hkeys q (List.mem_append_left _ hq)
  have hkeysW : ∀ q ∈ st.workspaceConnections ++ st.workspaceFolderConnections,
      (connSortKey q).isSome = true :=
    fun q hq => hkeys q (List.mem_append_right _ hq)
  have hkey' : (connSortKey p').isSome = true := connSortKey_isSome_of_info hinfo
  have huser' : getConnectionsFromSettings (addConnection freshId p .user st)
      ConfigTarget.global =
      st.userConnections.filter (fun q => !(isSameProfile q p')) ++ [p'] := by
    rw [hst']
    rfl
  have hws' : getConnectionsFromSettings (addConnection freshId p .user st)
      ConfigTarget.workspace = st.workspaceConnections ++ st.workspaceFolderConnections := by
    rw [hst']
    rfl
  have hgroups' : getGroups (addConnection freshId p .user st) ConfigTarget.global =
      getGroups st ConfigTarget.global := by
    rw [hst']
    rfl
  have hkeysU' : ∀ q ∈ st.userConnections.filter (fun q => !(isSameProfile q p')) ++ [p'],
      (connSortKey q).isSome = true := by
    intro q hq
    rcases List.mem_append.mp hq with hq1 | hq2
    · exact hkeysU q (List.mem_filter.mp hq1).1
    · rw [List.mem_singleton.mp hq2]
      exact hkey'
  obtain ⟨us, hus⟩ := @sortByCmp_ok lcmp _ hkeysU'
  have hkeysWF : ∀ q ∈ (st.workspaceConnections ++ st.workspaceFolderConnections).filter
      (fun r => truthy r.id), (connSortKey q).isSome = true :=
    fun q hq => hkeysW q (List.mem_filter.mp hq).1
  obtain ⟨wss, hwss⟩ := @sortByCmp_ok lcmp _ hkeysWF
  have hgc : getConnections lcmp true (addConnection freshId p .user st) =
      .ok (((us ++ wss).filter connHasInfo).filter
        (fun q => q.groupId ∈ (getGroups st ConfigTarget.global).map (fun g => g.id))) := by
    simp only [getConnections, huser', hws', hgroups', hus, hwss, eq_self_iff_true, if_true,
      lenGuard_filter]
  have hp'us : p' ∈ us :=
    (sortByCmp_perm hus).mem_iff.mpr
      (List.mem_append_right _ (List.mem_singleton.mpr rfl))
  have hp'big : p' ∈ ((us ++ wss).filter connHasInfo).filter
      (fun q => decide (q.groupId ∈ (getGroups st ConfigTarget.global).map (fun g => g.id))) :=
    List.mem_filter.mpr
      ⟨List.mem_filter.mpr ⟨List.mem_append_left _ hp'us, hinfo⟩, decide_eq_true hgrp⟩
  have huniq2 : ∀ q ∈ ((us ++ wss).filter connHasInfo).filter
      (fun q => decide (q.groupId ∈ (getGroups st ConfigTarget.global).map (fun g => g.id))),
      (decide (q.id = some pid)) = true → q = p' := by
    intro q hq hid
    have hid' : q.id = some pid := of_decide_eq_true hid
    have hq0 : q ∈ us ++ wss := (List.mem_filter.mp (List.mem_filter.mp hq).1).1
    rcases List.mem_append.mp hq0 with hqu | hqw
    · have hqm : q ∈ st.userConnections.filter (fun r => !(isSameProfile r p')) ++ [p'] :=
        (sortByCmp_perm hus).mem_iff.mp hqu
      rcases List.mem_append.mp hqm with hqf | hqp
      · exact absurd hid'
          (huniq q (List.mem_append_left _ (List.mem_filter.mp hqf).1))
      · exact List.mem_singleton.mp hqp
    · have hqm : q ∈ (st.workspaceConnections ++ st.workspaceFolderConnections).filter
          (fun r => truthy r.id) := (sortByCmp_perm hwss).mem_iff.mp hqw
      exact absurd hid'
        (huniq q (List.mem_append_right _ (List.mem_filter.mp hqm).1))
  have hfind : (((us ++ wss).filter connHasInfo).filter
      (fun q => decide (q.groupId ∈
        (getGroups st ConfigTarget.global).map (fun g => g.id)))).find?
      (fun q => decide (q.id = some pid)) = some p' :=
    find_unique hp'big (decide_eq_true hpid) huniq2
  constructor
  · simp only [getConnectionById, hgc, hfind]
  · exact populate_isSame freshId p

/-- Stored profile sharing the id of the profile to add (C8 counterexample,
duplicate-id scenario). -/
def qA8 : IConnectionProfile :=
  { id := some "i", groupId := some rootGroupId, profileName := some "A",
    server := some "s", connectionString := none }

/-- Profile passed to addConnection in the duplicate-id scenario. -/
def pA8 : IConnectionProfile :=
  { id := some "i", groupId := some rootGroupId, profileName := some "B",
    server := some "s2", connectionString := none }

/-- State holding the conflicting stored profile. -/
def stA8 : SettingsState :=
  { userConnections := [qA8], workspaceConnections := [], workspaceFolderConnections := [],
    userGroups := [], workspaceGroups := [], workspaceFolderGroups := [], writeLog := [] }

/-- Profile lacking all connection information (C8 counterexample,
filtered-out scenario). -/
def pB8 : IConnectionProfile :=
  { id := some "j", groupId := some rootGroupId, profileName := none,
    server := none, connectionString := none }

/-- Stored profile with no derivable sort key (C8 counterexample, comparator
throw scenario). -/
def keyless8 : IConnectionProfile :=
  { id := some "k", groupId := some rootGroupId, profileName := none,
    server := none, connectionString := none }

/-- State holding the keyless stored profile. -/
def stK8 : SettingsState :=
  { userConnections := [keyless8], workspaceConnections := [], workspaceFolderConnections := [],
    userGroups := [], workspaceGroups := [], workspaceFolderGroups := [], writeLog := [] }

/-- Profile passed to addConnection in the comparator-throw scenario. -/
def pC8 : IConnectionProfile :=
  { id := some "m", groupId := some rootGroupId, profileName := some "M",
    server := some "s", connectionString := none }

/-- Counterexample to claim C8 as stated, in three scenarios: with a stored
profile sharing the id, the round trip returns the older stored profile,
which is not structurally equal to the argument; with a profile lacking
connection information, the round trip returns nothing; with a stored
profile lacking a sort key, the round trip rejects with a TypeError. -/
theorem addConnection_roundTrip_cex :
    (getConnectionById lcmpDemo "i" (addConnection "f0" pA8 .user stA8) = .ok (some qA8) ∧
      isSameProfile qA8 pA8 = false) ∧
    getConnectionById lcmpDemo "j" (addConnection "f1" pB8 .user stEmpty) = .ok none ∧
    getConnectionById lcmpDemo "m" (addConnection "f2" pC8 .user stK8) =
      .error .typeError := by
  refine ⟨⟨rfl, by decide⟩, rfl, rfl⟩

/-- Profile added in the C8 witness (id and groupId both back-filled). -/
def pW8 : IConnectionProfile :=
  { id := none, groupId := none, profileName := some "P",
    server := some "srv", connectionString := none }

/-- Witness for the amended claim C8 at the empty state. -/
theorem addConnection_roundTrip_witness :
    ((populateMissingConnectionIds "fresh8" pW8).1).id = some "fresh8" ∧
    connHasInfo (populateMissingConnectionIds "fresh8" pW8).1 = true ∧
    ((populateMissingConnectionIds "fresh8" pW8).1).groupId ∈
      (getGroups stEmpty ConfigTarget.global).map (fun g => g.id) ∧
    (∀ q ∈ stEmpty.userConnections ++
      (stEmpty.workspaceConnections ++ stEmpty.workspaceFolderConnections),
      q.id ≠ some "fresh8") ∧
    (∀ q ∈ stEmpty.userConnections ++
      (stEmpty.workspaceConnections ++ stEmpty.workspaceFolderConnections),
      (connSortKey q).isSome = true) ∧
    (getConnectionById lcmpZero "fresh8" (addConnection "fresh8" pW8 .user stEmpty) =
      .ok (some (populateMissingConnectionIds "fresh8" pW8).1) ∧
     isSameProfile (populateMissingConnectionIds "fresh8" pW8).1 pW8 = true) :=
  ⟨by decide, by decide, by decide, by decide, by decide,
    addConnection_roundTrip lcmpZero stEmpty pW8 "fresh8" "fresh8"
      (by decide) (by decide) (by decide) (by decide) (by decide)⟩

/-!  Claim C1: idempotence of the integrity/migration pass. -/

/-- A wrapped nonempty string is truthy. -/
theorem truthy_some_iff {s : String} : truthy (some s) = true ↔ s ≠ "" := by
  simp [truthy]

/-- The reserved ROOT id is truthy. -/
theorem truthy_root : truthy (some rootGroupId) = true := by decide

/-- Legacy root ids never equal the reserved ROOT id. -/
theorem legacyRootIdsOf_ne_root {raw : List IConnectionGroup} {x : OptStr}
    (h : x ∈ legacyRootIdsOf raw) : x ≠ some rootGroupId := by
  obtain ⟨g, hg, hgx⟩ := List.mem_map.mp h
  have hf := (List.mem_filter.mp hg).2
  have hc := of_decide_eq_true hf
  rw [← hgx]
  exact hc.2

/-- Members of legacyRootIdsOf come from stored groups named like ROOT. -/
theorem legacyRootIdsOf_elim {raw : List IConnectionGroup} {x : OptStr}
    (h : x ∈ legacyRootIdsOf raw) :
    ∃ g ∈ raw, g.name = some rootGroupName ∧ g.id ≠ some rootGroupId ∧ g.id = x := by
  obtain ⟨g, hg, hgx⟩ := List.mem_map.mp h
  have hm := List.mem_filter.mp hg
  have hc := of_decide_eq_true hm.2
  exact ⟨g, hm.1, hc.1, hc.2, hgx⟩

/-- Introduction for legacyRootIdsOf membership. -/
theorem legacyRootIdsOf_intro {raw : List IConnectionGroup} {g : IConnectionGroup}
    (hg : g ∈ raw) (hn : g.name = some rootGroupName) (hi : g.id ≠ some rootGroupId) :
    g.id ∈ legacyRootIdsOf raw :=
  List.mem_map_of_mem _ (List.mem_filter.mpr ⟨hg, decide_eq_true ⟨hn, hi⟩⟩)

/-- The legacy-migration step leaves id and name alone. -/
theorem migrateLegacyGroup_id (legacy : List OptStr) (g : IConnectionGroup) :
    (migrateLegacyGroup legacy g).id = g.id := by
  unfold migrateLegacyGroup
  split <;> rfl

/-- The legacy-migration step leaves the name alone. -/
theorem migrateLegacyGroup_name (legacy : List OptStr) (g : IConnectionGroup) :
    (migrateLegacyGroup legacy g).name = g.name := by
  unfold migrateLegacyGroup
  split <;> rfl

/-- Case analysis of the legacy-migration step on the parent field. -/
theorem migrateLegacyGroup_parent (legacy : List OptStr) (g : IConnectionGroup) :
    (migrateLegacyGroup legacy g).parentId = some rootGroupId ∨
    ((migrateLegacyGroup legacy g).parentId = g.parentId ∧ g.parentId ∉ legacy) := by
  unfold migrateLegacyGroup
  by_cases h : g.parentId ∈ legacy
  · exact Or.inl (by rw [if_pos h])
  · exact Or.inr ⟨by rw [if_neg h], h⟩

/-- The orphan-repair step leaves id and name alone. -/
theorem orphanFixGroup_id (valid : List OptStr) (g : IConnectionGroup) :
    (orphanFixGroup valid g).id = g.id := by
  unfold orphanFixGroup
  split <;> rfl

/-- The orphan-repair step leaves the name alone. -/
theorem orphanFixGroup_name (valid : List OptStr) (g : IConnectionGroup) :
    (orphanFixGroup valid g).name = g.name := by
  unfold orphanFixGroup
  split <;> rfl

/-- Case analysis of the orphan-repair step on the parent field. -/
theorem orphanFixGroup_parent (valid : List OptStr) (g : IConnectionGroup) :
    (orphanFixGroup valid g).parentId = some rootGroupId ∨
    ((orphanFixGroup valid g).parentId = g.parentId ∧
      ¬(truthy g.parentId = true ∧ g.parentId ∉ valid)) := by
  unfold orphanFixGroup
  by_cases h : truthy g.parentId = true ∧ g.parentId ∉ valid
  · exact Or.inl (by rw [if_pos h])
  · exact Or.inr ⟨by rw [if_neg h], h⟩

/-- The id back-fill leaves parent and name alone. -/
theorem fillGroupId_parent (f : String) (g : IConnectionGroup) :
    (fillGroupId f g).parentId = g.parentId := by
  unfold fillGroupId
  split <;> rfl

/-- The id back-fill leaves the name alone. -/
theorem fillGroupId_name (f : String) (g : IConnectionGroup) :
    (fillGroupId f g).name = g.name := by
  unfold fillGroupId
  split <;> rfl

/-- Case analysis of the id back-fill. -/
theorem fillGroupId_id (f : String) (g : IConnectionGroup) :
    (truthy g.id = true ∧ (fillGroupId f g).id = g.id) ∨
    (truthy g.id = false ∧ (fillGroupId f g).id = some f) := by
  unfold fillGroupId
  cases h : truthy g.id with
  | true => exact Or.inl ⟨rfl, by rw [if_pos rfl]⟩
  | false => exact Or.inr ⟨rfl, by rw [if_neg (by simp : ¬(false = true))]⟩

/-- The parent back-fill leaves id and name alone. -/
theorem fillGroupParent_id (g : IConnectionGroup) :
    (fillGroupParent g).id = g.id := by
  unfold fillGroupParent
  split <;> rfl

/-- The parent back-fill leaves the name alone. -/
theorem fillGroupParent_name (g : IConnectionGroup) :
    (fillGroupParent g).name = g.name := by
  unfold fillGroupParent
  split <;> rfl

/-- Case analysis of the parent back-fill. -/
theorem fillGroupParent_parent (g : IConnectionGroup) :
    (truthy g.parentId = true ∧ (fillGroupParent g).parentId = g.parentId) ∨
    (truthy g.parentId = false ∧ (fillGroupParent g).parentId = some rootGroupId) := by
  unfold fillGroupParent
  cases h : truthy g.parentId with
  | true => exact Or.inl ⟨rfl, by rw [if_pos rfl]⟩
  | false => exact Or.inr ⟨rfl, by rw [if_neg (by simp : ¬(false = true))]⟩

/-- The repaired group is the composition of the four steps. -/
theorem repairGroup_fst (gen : Nat → String) (legacy valid : List OptStr) (n : Nat)
    (g : IConnectionGroup) :
    (repairGroup gen legacy valid n g).1 =
      fillGroupParent (fillGroupId (gen n) (orphanFixGroup valid (migrateLegacyGroup legacy g))) :=
  rfl

/-- Full characterisation of one group repair step: the name survives, the
id is the old one (when truthy) or the generated one, the parent ends up
truthy, and it either is the ROOT id or is the old parent which already
passed every check. -/
theorem repairGroup_spec (gen : Nat → String) (legacy valid : List OptStr) (n : Nat)
    (g : IConnectionGroup) (hgen : gen n ≠ "") :
    ((repairGroup gen legacy valid n g).1).name = g.name ∧
    truthy ((repairGroup gen legacy valid n g).1).id = true ∧
    (truthy g.id = true ∧ ((repairGroup gen legacy valid n g).1).id = g.id ∨
      truthy g.id = false ∧ ((repairGroup gen legacy valid n g).1).id = some (gen n)) ∧
    truthy ((repairGroup gen legacy valid n g).1).parentId = true ∧
    (((repairGroup gen legacy valid n g).1).parentId = some rootGroupId ∨
      (((repairGroup gen legacy valid n g).1).parentId = g.parentId ∧
        g.parentId ∉ legacy ∧ g.parentId ∈ valid ∧ truthy g.parentId = true)) := by
  rw [repairGroup_fst]
  have hoid : (orphanFixGroup valid (migrateLegacyGroup legacy g)).id = g.id := by
    rw [orphanFixGroup_id, migrateLegacyGroup_id]
  refine ⟨?_, ?_, ?_, ?_, ?_⟩
  · rw [fillGroupParent_name, fillGroupId_name, orphanFixGroup_name, migrateLegacyGroup_name]
  · rw [fillGroupParent_id]
    rcases fillGroupId_id (gen n) (orphanFixGroup valid (migrateLegacyGroup legacy g)) with
      ⟨ht, hid⟩ | ⟨ht, hid⟩
    · rw [hid]
      exact ht
    · rw [hid]
      exact truthy_some_iff.mpr hgen
  · rw [fillGroupParent_id]
    rcases fillGroupId_id (gen n) (orphanFixGroup valid (migrateLegacyGroup legacy g)) with
      ⟨ht, hid⟩ | ⟨ht, hid⟩
    · rw [hoid] at ht
      rw [hoid] at hid
      exact Or.inl ⟨ht, hid⟩
    · rw [hoid] at ht
      exact Or.inr ⟨ht, hid⟩
  · rcases fillGroupParent_parent
        (fillGroupId (gen n) (orphanFixGroup valid (migrateLegacyGroup legacy g))) with
      ⟨ht, hpp⟩ | ⟨ht, hpp⟩
    · rw [hpp]
      exact ht
    · rw [hpp]
      exact truthy_root
  · rcases fillGroupParent_parent
        (fillGroupId (gen n) (orphanFixGroup valid (migrateLegacyGroup legacy g))) with
      ⟨ht, hpp⟩ | ⟨ht, hpp⟩
    · rw [hpp, fillGroupId_parent]
      rcases orphanFixGroup_parent valid (migrateLegacyGroup legacy g) with ho | ⟨ho, hno⟩
      · exact Or.inl ho
      · rw [ho]
        rcases migrateLegacyGroup_parent legacy g with hm | ⟨hm, hnm⟩
        · exact Or.inl hm
        · rw [hm]
          rw [hm] at hno
          have htp : truthy g.parentId = true := by
            rw [fillGroupId_parent, ho, hm] at ht
            exact ht
          exact Or.inr ⟨rfl, hnm, not_not.mp (fun hnv => hno ⟨htp, hnv⟩), htp⟩
    · exact Or.inl hpp

/-- A group that passes all four checks is returned unchanged, with no flag
and no counter advance. -/
theorem repairGroup_untouched (gen : Nat → String) (legacy valid : List OptStr) (n : Nat)
    (g : IConnectionGroup)
    (h1 : g.parentId ∉ legacy) (h2 : truthy g.parentId = true)
    (h3 : g.parentId ∈ valid) (h4 : truthy g.id = true) :
    repairGroup gen legacy valid n g = (g, false, n) := by
  have hm : migrateLegacyGroup legacy g = g := by
    unfold migrateLegacyGroup
    rw [if_neg h1]
  have ho : orphanFixGroup valid g = g := by
    unfold orphanFixGroup
    rw [if_neg (fun hc => hc.2 h3)]
  have hf : fillGroupId (gen n) g = g := by
    unfold fillGroupId
    rw [if_pos h4]
  have hp : fillGroupParent g = g := by
    unfold fillGroupParent
    rw [if_pos h2]
  have c1 : decide (g.parentId ∈ legacy) = false := decide_eq_false h1
  have c2 : decide (truthy g.parentId = true ∧ g.parentId ∉ valid) = false :=
    decide_eq_false (fun hc => hc.2 h3)
  simp [repairGroup, hm, ho, hf, hp, c1, c2, h2, h3, h4, h1]

/-- When the step raises no flag, the group already passed all four
checks. -/
theorem repairGroup_nochange_elim (gen : Nat → String) (legacy valid : List OptStr)
    (n : Nat) (g : IConnectionGroup)
    (h : (repairGroup gen legacy valid n g).2.1 = false) :
    g.parentId ∉ legacy ∧ truthy g.parentId = true ∧
    g.parentId ∈ valid ∧ truthy g.id = true := by
  have hh : (decide (g.parentId ∈ legacy) ||
      decide (truthy (migrateLegacyGroup legacy g).parentId = true ∧
        (migrateLegacyGroup legacy g).parentId ∉ valid) ||
      !(truthy (orphanFixGroup valid (migrateLegacyGroup legacy g)).id) ||
      !(truthy (fillGroupId (gen n)
        (orphanFixGroup valid (migrateLegacyGroup legacy g))).parentId)) = false := h
  simp only [Bool.or_eq_false_iff] at hh
  obtain ⟨⟨⟨c1, c2⟩, c3⟩, c4⟩ := hh
  have h1 : g.parentId ∉ legacy := of_decide_eq_false c1
  have hm : migrateLegacyGroup legacy g = g := by
    unfold migrateLegacyGroup
    rw [if_neg h1]
  rw [hm] at c2
  have h23 : ¬(truthy g.parentId = true ∧ g.parentId ∉ valid) := of_decide_eq_false c2
  have ho : orphanFixGroup valid g = g := by
    unfold orphanFixGroup
    rw [if_neg h23]
  rw [hm, ho] at c3
  have h4 : truthy g.id = true := by simpa using c3
  rw [hm, ho, fillGroupId_parent] at c4
  have h2 : truthy g.parentId = true := by simpa using c4
  have h3 : g.parentId ∈ valid := not_not.mp (fun hnv => h23 ⟨h2, hnv⟩)
  exact ⟨h1, h2, h3, h4⟩

/-- The loop returns its input unchanged, with no flag and no counter
advance, when every group passes all checks. -/
theorem repairGroupsLoop_untouched (gen : Nat → String) (legacy valid : List OptStr)
    (gs : List IConnectionGroup) (n : Nat)
    (h : ∀ g ∈ gs, g.parentId ∉ legacy ∧ truthy g.parentId = true ∧
      g.parentId ∈ valid ∧ truthy g.id = true) :
    repairGroupsLoop gen legacy valid gs n = (gs, false, n) := by
  induction gs generalizing n with
  | nil => rfl
  | cons g gs ih =>
    obtain ⟨h1, h2, h3, h4⟩ := h g (List.mem_cons_self g gs)
    have hr := repairGroup_untouched gen legacy valid n g h1 h2 h3 h4
    have hrest := ih n (fun x hx => h x (List.mem_cons_of_mem g hx))
    simp [repairGroupsLoop, hr, hrest]

/-- When the loop raises no flag, every group already passed all checks. -/
theorem repairGroupsLoop_false_elim (gen : Nat → String) (legacy valid : List OptStr)
    {gs : List IConnectionGroup} {n : Nat}
    (h : (repairGroupsLoop gen legacy valid gs n).2.1 = false) :
    ∀ g ∈ gs, g.parentId ∉ legacy ∧ truthy g.parentId = true ∧
      g.parentId ∈ valid ∧ truthy g.id = true := by
  induction gs generalizing n with
  | nil => intro g hg; cases hg
  | cons g gs ih =>
    have hh : ((repairGroup gen legacy valid n g).2.1 ||
        (repairGroupsLoop gen legacy valid gs
          (repairGroup gen legacy valid n g).2.2).2.1) = false := h
    simp only [Bool.or_eq_false_iff] at hh
    intro x hx
    rcases List.mem_cons.mp hx with rfl | hxs
    · exact repairGroup_nochange_elim gen legacy valid n x hh.1
    · exact ih hh.2 x hxs

/-- Every group of the loop output is the repair of some input group. -/
theorem repairGroupsLoop_out (gen : Nat → String) (legacy valid : List OptStr)
    {gs : List IConnectionGroup} {n : Nat} {g' : IConnectionGroup}
    (h : g' ∈ (repairGroupsLoop gen legacy valid gs n).1) :
    ∃ g ∈ gs, ∃ m, g' = (repairGroup gen legacy valid m g).1 := by
  induction gs generalizing n with
  | nil => cases h
  | cons g gs ih =>
    have hh : g' ∈ (repairGroup gen legacy valid n g).1 ::
        (repairGroupsLoop gen legacy valid gs (repairGroup gen legacy valid n g).2.2).1 := h
    rcases List.mem_cons.mp hh with rfl | hmem
    · exact ⟨g, List.mem_cons_self _ _, n, rfl⟩
    · obtain ⟨x, hx, m, hm⟩ := ih hmem
      exact ⟨x, List.mem_cons_of_mem _ hx, m, hm⟩

/-- Every input group shows up, repaired, in the loop output. -/
theorem repairGroupsLoop_in (gen : Nat → String) (legacy valid : List OptStr)
    {gs : List IConnectionGroup} {g : IConnectionGroup} (hg : g ∈ gs) (n : Nat) :
    ∃ m, (repairGroup gen legacy valid m g).1 ∈ (repairGroupsLoop gen legacy valid gs n).1 := by
  induction gs generalizing n with
  | nil => cases hg
  | cons x xs ih =>
    have hexp : (repairGroupsLoop gen legacy valid (x :: xs) n).1 =
        (repairGroup gen legacy valid n x).1 ::
        (repairGroupsLoop gen legacy valid xs (repairGroup gen legacy valid n x).2.2).1 := rfl
    rcases List.mem_cons.mp hg with rfl | hmem
    · refine ⟨n, ?_⟩
      rw [hexp]
      exact List.mem_cons_self _ _
    · obtain ⟨m, hm⟩ := ih hmem (repairGroup gen legacy valid n x).2.2
      refine ⟨m, ?_⟩
      rw [hexp]
      exact List.mem_cons_of_mem _ hm

/-- A profile with both fields present is untouched by the back-fill. -/
theorem populate_untouched {freshId : String} {p : IConnectionProfile}
    (h1 : p.groupId ≠ none) (h2 : p.id ≠ none) :
    populateMissingConnectionIds freshId p = (p, false) := by
  unfold populateMissingConnectionIds
  simp [h1, h2]

/-- When the back-fill reports no change, both fields were present. -/
theorem populate_flag_elim {freshId : String} {p : IConnectionProfile}
    (h : (populateMissingConnectionIds freshId p).2 = false) :
    p.groupId ≠ none ∧ p.id ≠ none := by
  by_cases h1 : p.groupId = none
  · exfalso
    unfold populateMissingConnectionIds at h
    simp [h1] at h
  · by_cases h2 : p.id = none
    · exfalso
      unfold populateMissingConnectionIds at h
      simp [h1, h2] at h
    · exact ⟨h1, h2⟩

/-- The back-filled profile has an id, and its group is either the ROOT id
or the original present group. -/
theorem populate_spec (freshId : String) (p : IConnectionProfile) :
    ((populateMissingConnectionIds freshId p).1).id ≠ none ∧
    (((populateMissingConnectionIds freshId p).1).groupId = some rootGroupId ∨
      (((populateMissingConnectionIds freshId p).1).groupId = p.groupId ∧
        p.groupId ≠ none)) := by
  unfold populateMissingConnectionIds
  by_cases h1 : p.groupId = none <;> by_cases h2 : p.id = none <;> simp [h1, h2]

/-- The profile legacy migration leaves the id alone. -/
theorem profileLegacyFix_id (legacy : List OptStr) (p : IConnectionProfile) :
    (profileLegacyFix legacy p).id = p.id := by
  unfold profileLegacyFix
  split <;> rfl

/-- Case analysis of the profile legacy migration on the group field. -/
theorem profileLegacyFix_group (legacy : List OptStr) (p : IConnectionProfile) :
    (profileLegacyFix legacy p).groupId = some rootGroupId ∨
    ((profileLegacyFix legacy p).groupId = p.groupId ∧ p.groupId ∉ legacy) := by
  unfold profileLegacyFix
  by_cases h : p.groupId ∈ legacy
  · exact Or.inl (by rw [if_pos h])
  · exact Or.inr ⟨by rw [if_neg h], h⟩

/-- The orphan guard is false on any profile whose group is in the valid
set. -/
theorem profileOrphanCond_false {valid : List OptStr} {q : IConnectionProfile}
    (h : q.groupId ∈ valid) : profileOrphanCond valid q = false := by
  unfold profileOrphanCond
  simp [h]

/-- A profile that passes all checks is returned unchanged, with no flag
and no counter advance. -/
theorem repairProfile_untouched (gen : Nat → String) (legacy valid : List OptStr) (n : Nat)
    (p : IConnectionProfile)
    (h1 : p.groupId ∉ legacy) (h2 : p.groupId ∈ valid)
    (h3 : p.groupId ≠ none) (h4 : p.id ≠ none) :
    repairProfile gen legacy valid n p = (p, false, n) := by
  have hlf : profileLegacyFix legacy p = p := by
    unfold profileLegacyFix
    rw [if_neg h1]
  have hoc : profileOrphanCond valid p = false := profileOrphanCond_false h2
  have hpop := @populate_untouched (gen n) p h3 h4
  unfold repairProfile
  simp [hlf, hoc, hpop, decide_eq_false h1, h4]

/-- The repaired profile has an id, and its group is either the ROOT id or
the original group which already passed the legacy check. -/
theorem repairProfile_spec (gen : Nat → String) (legacy valid : List OptStr) (n : Nat)
    (p : IConnectionProfile) :
    ((repairProfile gen legacy valid n p).1).id ≠ none ∧
    (((repairProfile gen legacy valid n p).1).groupId = some rootGroupId ∨
      (((repairProfile gen legacy valid n p).1).groupId = p.groupId ∧
        p.groupId ∉ legacy ∧ p.groupId ≠ none)) := by
  have hfst : (repairProfile gen legacy valid n p).1 =
      (populateMissingConnectionIds (gen n)
        (if profileOrphanCond valid (profileLegacyFix legacy p) then
          { profileLegacyFix legacy p with groupId := some rootGroupId }
        else profileLegacyFix legacy p)).1 := rfl
  rw [hfst]
  obtain ⟨hid, hg⟩ := populate_spec (gen n)
    (if profileOrphanCond valid (profileLegacyFix legacy p) then
      { profileLegacyFix legacy p with groupId := some rootGroupId }
    else profileLegacyFix legacy p)
  refine ⟨hid, ?_⟩
  rcases hg with hroot | ⟨hkeep, hne⟩
  · exact Or.inl hroot
  · cases hoc : profileOrphanCond valid (profileLegacyFix legacy p) with
    | true =>
      rw [hoc] at hkeep
      rw [if_pos rfl] at hkeep
      exact Or.inl hkeep
    | false =>
      rw [hoc] at hkeep hne
      rw [if_neg (by simp : ¬(false = true))] at hkeep hne
      rcases profileLegacyFix_group legacy p with hl | ⟨hl, hnl⟩
      · rw [hl] at hkeep
        exact Or.inl hkeep
      · rw [hl] at hkeep hne
        exact Or.inr ⟨hkeep, hnl, hne⟩

/-- When the profile step raises no flag, the profile already passed all
checks. -/
theorem repairProfile_nochange_elim (gen : Nat → String) (legacy valid : List OptStr)
    (n : Nat) (p : IConnectionProfile)
    (h : (repairProfile gen legacy valid n p).2.1 = false) :
    p.groupId ∉ legacy ∧ p.groupId ≠ none ∧ p.id ≠ none := by
  have hh : (decide (p.groupId ∈ legacy) ||
      profileOrphanCond valid (profileLegacyFix legacy p) ||
      (populateMissingConnectionIds (gen n)
        (if profileOrphanCond valid (profileLegacyFix legacy p) then
          { profileLegacyFix legacy p with groupId := some rootGroupId }
        else profileLegacyFix legacy p)).2) = false := h
  simp only [Bool.or_eq_false_iff] at hh
  obtain ⟨⟨c1, c2⟩, c3⟩ := hh
  have h1 : p.groupId ∉ legacy := of_decide_eq_false c1
  rw [c2] at c3
  rw [if_neg (by simp : ¬(false = true))] at c3
  obtain ⟨h3, h4⟩ := populate_flag_elim c3
  have hlf : profileLegacyFix legacy p = p := by
    unfold profileLegacyFix
    rw [if_neg h1]
  rw [hlf] at h3 h4
  exact ⟨h1, h3, h4⟩

/-- The profile loop returns its input unchanged when every profile passes
all checks. -/
theorem repairProfilesLoop_untouched (gen : Nat → String) (legacy valid : List OptStr)
    (ps : List IConnectionProfile) (n : Nat)
    (h : ∀ p ∈ ps, p.groupId ∉ legacy ∧ p.groupId ∈ valid ∧
      p.groupId ≠ none ∧ p.id ≠ none) :
    repairProfilesLoop gen legacy valid ps n = (ps, false, n) := by
  induction ps generalizing n with
  | nil => rfl
  | cons p ps ih =>
    obtain ⟨h1, h2, h3, h4⟩ := h p (List.mem_cons_self p ps)
    have hr := repairProfile_untouched gen legacy valid n p h1 h2 h3 h4
    have hrest := ih n (fun x hx => h x (List.mem_cons_of_mem p hx))
    simp [repairProfilesLoop, hr, hrest]

/-- When the profile loop raises no flag, every profile already passed all
checks. -/
theorem repairProfilesLoop_false_elim (gen : Nat → String) (legacy valid : List OptStr)
    {ps : List IConnectionProfile} {n : Nat}
    (h : (repairProfilesLoop gen legacy valid ps n).2.1 = false) :
    ∀ p ∈ ps, p.groupId ∉ legacy ∧ p.groupId ≠ none ∧ p.id ≠ none := by
  induction ps generalizing n with
  | nil => intro p hp; cases hp
  | cons p ps ih =>
    have hh : ((repairProfile gen legacy valid n p).2.1 ||
        (repairProfilesLoop gen legacy valid ps
          (repairProfile gen legacy valid n p).2.2).2.1) = false := h
    simp only [Bool.or_eq_false_iff] at hh
    intro x hx
    rcases List.mem_cons.mp hx with rfl | hxs
    · exact repairProfile_nochange_elim gen legacy valid n x hh.1
    · exact ih hh.2 x hxs

/-- Every profile of the loop output is the repair of some input profile. -/
theorem repairProfilesLoop_out (gen : Nat → String) (legacy valid : List OptStr)
    {ps : List IConnectionProfile} {n : Nat} {p' : IConnectionProfile}
    (h : p' ∈ (repairProfilesLoop gen legacy valid ps n).1) :
    ∃ p ∈ ps, ∃ m, p' = (repairProfile gen legacy valid m p).1 := by
  induction ps generalizing n with
  | nil => cases h
  | cons p ps ih =>
    have hh : p' ∈ (repairProfile gen legacy valid n p).1 ::
        (repairProfilesLoop gen legacy valid ps (repairProfile gen legacy valid n p).2.2).1 := h
    rcases List.mem_cons.mp hh with rfl | hmem
    · exact ⟨p, List.mem_cons_self _ _, n, rfl⟩
    · obtain ⟨x, hx, m, hm⟩ := ih hmem
      exact ⟨x, List.mem_cons_of_mem _ hx, m, hm⟩

/-- Fixed-point predicate of the group pass: every stored non-ROOT group
already passes all four repair checks against the sets the pass computes. -/
def GroupsFixedL (groups : List IConnectionGroup) : Prop :=
  ∀ g ∈ nonRootGroups groups,
    g.parentId ∉ legacyRootIdsOf groups ∧ truthy g.parentId = true ∧
    g.parentId ∈ groupValidIds groups ∧ truthy g.id = true

/-- Fixed-point predicate of the profile pass: every stored global profile
already passes the legacy check and has both identifiers. -/
def ProfilesFixedL (conns : List IConnectionProfile) (groups : List IConnectionGroup) : Prop :=
  ∀ p ∈ conns,
    p.groupId ∉ legacyRootIdsOf groups ∧ p.groupId ≠ none ∧ p.id ≠ none

/-- The group pass is the identity, with no write and no counter advance,
on a state whose groups are already repaired. -/
theorem assignGroups_fixed_noop (gen : Nat → String) (st : SettingsState) (m : Nat)
    (h : GroupsFixedL st.userGroups) :
    assignConnectionGroupMissingIds gen st m = (st, m) := by
  have hl := repairGroupsLoop_untouched gen (legacyRootIdsOf st.userGroups)
    (groupValidIds st.userGroups) (nonRootGroups st.userGroups) m h
  simp [assignConnectionGroupMissingIds, getGroupsFromSettings, hl]

/-- The profile pass is the identity, with no write and no counter advance,
on a state whose profiles are already repaired. -/
theorem assignConns_fixed_noop (gen : Nat → String) (st : SettingsState) (m : Nat)
    (h : ProfilesFixedL st.userConnections st.userGroups) :
    assignConnectionMissingIds gen st m = (st, m) := by
  have hl := repairProfilesLoop_untouched gen (legacyRootIdsOf st.userGroups)
    (connValidGroupIds st.userConnections) st.userConnections m
    (fun p hp => ⟨(h p hp).1,
      List.mem_cons_of_mem _ (List.mem_map_of_mem (fun q => q.groupId) hp),
      (h p hp).2.1, (h p hp).2.2⟩)
  simp [assignConnectionMissingIds, getConnectionsFromSettings, getGroupsFromSettings, hl]

/-- The profile pass does not touch the stored groups. -/
theorem assignConns_userGroups (gen : Nat → String) (st : SettingsState) (n : Nat) :
    ((assignConnectionMissingIds gen st n).1).userGroups = st.userGroups := by
  cases hc : (repairProfilesLoop gen
      (legacyRootIdsOf (getGroupsFromSettings st ConfigTarget.global))
      (connValidGroupIds (getConnectionsFromSettings st ConfigTarget.global))
      (getConnectionsFromSettings st ConfigTarget.global) n).2.1 with
  | true => simp [assignConnectionMissingIds, hc, writeConnectionsToSettings]
  | false => simp [assignConnectionMissingIds, hc]

/-- After the group pass, the stored groups are repaired, provided generated
ids are nonempty and fresh for the stored parent references. -/
theorem assignGroups_makes_fixed (gen : Nat → String) (st : SettingsState) (n : Nat)
    (hgen : ∀ k, gen k ≠ "" ∧ ∀ g ∈ st.userGroups, g.parentId ≠ some (gen k)) :
    GroupsFixedL ((assignConnectionGroupMissingIds gen st n).1).userGroups := by
  cases hc : (repairGroupsLoop gen (legacyRootIdsOf st.userGroups)
      (groupValidIds st.userGroups) (nonRootGroups st.userGroups) n).2.1 with
  | false =>
    have hres : (assignConnectionGroupMissingIds gen st n).1 = st := by
      simp [assignConnectionGroupMissingIds, getGroupsFromSettings, hc]
    rw [hres]
    intro g hg
    exact repairGroupsLoop_false_elim gen _ _ hc g hg
  | true =>
    have hres : ((assignConnectionGroupMissingIds gen st n).1).userGroups =
        (repairGroupsLoop gen (legacyRootIdsOf st.userGroups)
          (groupValidIds st.userGroups) (nonRootGroups st.userGroups) n).1 := by
      simp [assignConnectionGroupMissingIds, getGroupsFromSettings, hc,
        writeConnectionGroupsToSettings]
    rw [hres]
    intro g' hg'
    have hg'mem : g' ∈ (repairGroupsLoop gen (legacyRootIdsOf st.userGroups)
        (groupValidIds st.userGroups) (nonRootGroups st.userGroups) n).1 :=
      (List.mem_filter.mp hg').1
    obtain ⟨g, hgmem, m, hrep⟩ := repairGroupsLoop_out gen _ _ hg'mem
    obtain ⟨hname, htid, hidc, htp, hpc⟩ :=
      repairGroup_spec gen (legacyRootIdsOf st.userGroups) (groupValidIds st.userGroups)
        m g (hgen m).1
    subst hrep
    have hgraw : g ∈ st.userGroups := (List.mem_filter.mp hgmem).1
    refine ⟨?_, htp, ?_, htid⟩
    · -- parent not in the legacy set recomputed from the written groups
      intro hmem
      obtain ⟨r', hr'outs, hr'name, hr'ne, hr'id⟩ := legacyRootIdsOf_elim hmem
      obtain ⟨h', hh'mem, m2, hrep2⟩ := repairGroupsLoop_out gen _ _ hr'outs
      obtain ⟨hname2, _, hidc2, _, _⟩ :=
        repairGroup_spec gen (legacyRootIdsOf st.userGroups) (groupValidIds st.userGroups)
          m2 h' (hgen m2).1
      subst hrep2
      rcases hpc with hroot | ⟨hunch, hnl, hval, htpg⟩
      · rw [hroot] at hr'id
        exact hr'ne hr'id
      · rcases hidc2 with ⟨ht2, hid2⟩ | ⟨ht2, hid2⟩
        · -- the legacy entry kept its old id, so it was already legacy
          have hh'raw : h' ∈ st.userGroups := (List.mem_filter.mp hh'mem).1
          have hh'name : h'.name = some rootGroupName := by
            rw [← hname2]
            exact hr'name
          have hh'ne : h'.id ≠ some rootGroupId := by
            rw [← hid2]
            exact hr'ne
          have hx : h'.id ∈ legacyRootIdsOf st.userGroups :=
            legacyRootIdsOf_intro hh'raw hh'name hh'ne
          rw [← hid2, hr'id, hunch] at hx
          exact hnl hx
        · -- the legacy entry carries a generated id, impossible by freshness
          rw [hid2] at hr'id
          rw [hunch] at hr'id
          exact (hgen m2).2 g hgraw hr'id.symm
    · -- parent in the valid set recomputed from the written groups
      rcases hpc with hroot | ⟨hunch, hnl, hval, htpg⟩
      · rw [hroot]
        exact List.mem_cons_self _ _
      · rw [hunch]
        rcases List.mem_cons.mp hval with hvroot | hvmap
        · rw [hvroot]
          exact List.mem_cons_self _ _
        · obtain ⟨h, hhmem, hhid⟩ := List.mem_map.mp hvmap
          have hth : truthy h.id = true := by
            rw [hhid]
            rw [← hhid] at htpg
            rw [hhid] at htpg
            exact htpg
          obtain ⟨m', hm'⟩ := repairGroupsLoop_in gen (legacyRootIdsOf st.userGroups)
            (groupValidIds st.userGroups) hhmem n
          obtain ⟨_, _, hidc', _, _⟩ :=
            repairGroup_spec gen (legacyRootIdsOf st.userGroups)
              (groupValidIds st.userGroups) m' h (hgen m').1
          rcases hidc' with ⟨_, hid'⟩ | ⟨hfalse, _⟩
          · have hne : (repairGroup gen (legacyRootIdsOf st.userGroups)
                (groupValidIds st.userGroups) m' h).1.id ≠ some rootGroupId := by
              rw [hid']
              have := (List.mem_filter.mp hhmem).2
              exact of_decide_eq_true this
            refine List.mem_cons_of_mem _ ?_
            refine List.mem_map.mpr ⟨(repairGroup gen (legacyRootIdsOf st.userGroups)
              (groupValidIds st.userGroups) m' h).1, ?_, ?_⟩
            · exact List.mem_filter.mpr ⟨hm', decide_eq_true hne⟩
            · rw [hid']
              exact hhid
          · rw [hth] at hfalse
            cases hfalse

/-- After the profile pass, the stored profiles are repaired. -/
theorem assignConns_makes_fixed (gen : Nat → String) (st : SettingsState) (n : Nat) :
    ProfilesFixedL ((assignConnectionMissingIds gen st n).1).userConnections
      ((assignConnectionMissingIds gen st n).1).userGroups := by
  have hug := assignConns_userGroups gen st n
  cases hc : (repairProfilesLoop gen
      (legacyRootIdsOf (getGroupsFromSettings st ConfigTarget.global))
      (connValidGroupIds (getConnectionsFromSettings st ConfigTarget.global))
      (getConnectionsFromSettings st ConfigTarget.global) n).2.1 with
  | false =>
    have hres : (assignConnectionMissingIds gen st n).1 = st := by
      simp [assignConnectionMissingIds, hc]
    rw [hres]
    intro p hp
    exact repairProfilesLoop_false_elim gen _ _ hc p hp
  | true =>
    have hres : ((assignConnectionMissingIds gen st n).1).userConnections =
        (repairProfilesLoop gen
          (legacyRootIdsOf (getGroupsFromSettings st ConfigTarget.global))
          (connValidGroupIds (getConnectionsFromSettings st ConfigTarget.global))
          (getConnectionsFromSettings st ConfigTarget.global) n).1 := by
      simp [assignConnectionMissingIds, hc, writeConnectionsToSettings]
    rw [hug, hres]
    intro p' hp'
    obtain ⟨p, hpmem, m, hrep⟩ := repairProfilesLoop_out gen _ _ hp'
    obtain ⟨hid, hgc⟩ := repairProfile_spec gen
      (legacyRootIdsOf (getGroupsFromSettings st ConfigTarget.global))
      (connValidGroupIds (getConnectionsFromSettings st ConfigTarget.global)) m p
    subst hrep
    rcases hgc with hroot | ⟨hkeep, hnl, hne⟩
    · rw [hroot]
      exact ⟨fun hmem => legacyRootIdsOf_ne_root hmem rfl, Option.some_ne_none _, hid⟩
    · rw [hkeep]
      exact ⟨hnl, hne, hid⟩

/-- Claim C1: the integrity/migration pass (groups pass followed by profiles
pass) is idempotent: on any stored state, after one run, a second run
returns the state unchanged, write log included, so it modifies no record
and performs zero settings writes; the generated ids are assumed nonempty
and fresh for the parent references stored in the initial state. -/
theorem initMigrationPass_idempotent (gen : Nat → String) (st : SettingsState) (n m : Nat)
    (hgen : ∀ k, gen k ≠ "" ∧ ∀ g ∈ st.userGroups, g.parentId ≠ some (gen k)) :
    initMigrationPass gen ((initMigrationPass gen st n).1) m =
      ((initMigrationPass gen st n).1, m) := by
  have hdef : (initMigrationPass gen st n).1 =
      (assignConnectionMissingIds gen (assignConnectionGroupMissingIds gen st n).1
        (assignConnectionGroupMissingIds gen st n).2).1 := rfl
  have hGF1 := assignGroups_makes_fixed gen st n hgen
  have hug := assignConns_userGroups gen (assignConnectionGroupMissingIds gen st n).1
    (assignConnectionGroupMissingIds gen st n).2
  have hGF2 : GroupsFixedL ((assignConnectionMissingIds gen
      (assignConnectionGroupMissingIds gen st n).1
      (assignConnectionGroupMissingIds gen st n).2).1).userGroups := by
    rw [hug]
    exact hGF1
  have hPF2 := assignConns_makes_fixed gen (assignConnectionGroupMissingIds gen st n).1
    (assignConnectionGroupMissingIds gen st n).2
  have h1 := assignGroups_fixed_noop gen _ m hGF2
  have h2 := assignConns_fixed_noop gen _ m hPF2
  rw [hdef]
  unfold initMigrationPass
  rw [h1]
  exact h2

/-- Constant id generator for the C1 witness. -/
def genW : Nat → String := fun _ => "gen-w"

/-- Concrete state for the C1 witness: a legacy-named root group, a group
lacking an id whose parent is the legacy group, and a profile lacking an id
whose group is the legacy group, all in need of repair. -/
def stW1 : SettingsState :=
  { userConnections :=
      [{ id := none, groupId := some "lg", profileName := some "P",
         server := some "srv", connectionString := none }],
    workspaceConnections := [], workspaceFolderConnections := [],
    userGroups :=
      [{ id := some "lg", name := some rootGroupName, parentId := none },
       { id := none, name := some "G", parentId := some "lg" }],
    workspaceGroups := [], workspaceFolderGroups := [], writeLog := [] }

/-- Witness for claim C1 at a concrete state that the first run repairs. -/
theorem initMigrationPass_idempotent_witness :
    (∀ k, genW k ≠ "" ∧ ∀ g ∈ stW1.userGroups, g.parentId ≠ some (genW k)) ∧
    initMigrationPass genW ((initMigrationPass genW stW1 0).1) 0 =
      ((initMigrationPass genW stW1 0).1, 0) :=
  ⟨fun _ => ⟨(by decide : ("gen-w" : String) ≠ ""),
      (by decide : ∀ g ∈ stW1.userGroups, g.parentId ≠ some "gen-w")⟩,
    initMigrationPass_idempotent genW stW1 0 0
      (fun _ => ⟨(by decide : ("gen-w" : String) ≠ ""),
        (by decide : ∀ g ∈ stW1.userGroups, g.parentId ≠ some "gen-w")⟩)⟩
